import Mathlib

/-!
# kubeless cronjob-trigger controller: reconciliation core

A shallow embedding of `pkg/utils/kubelessutil.go` and
`pkg/controller/cronjob_trigger_controller.go`.

* Go `map[string]string` values are association lists read with `mapGet`
  (first binding of a key) and written with `mapSet` (replace or append).  A
  nil map and an empty map are both `[]`: the code tells them apart only in
  `addDefaultLabel` and `hasDefaultLabel`, where both behave alike.
* The cluster API (`kubernetes.Interface` and the two versioned clients) is an
  in-memory object store with a log of issued calls and a fault plan: the call
  issued as number `n` fails with `faults n` when that is `some e`, and leaves
  the store as it was.
* A Go `error` result is `Option Error`, `none` being `nil`.
-/

namespace Kubeless

/-! ## Maps -/

/-- Lookup `m[k]` with presence information. -/
def mapGet : List (String × String) → String → Option String
  | [], _ => none
  | (k, v) :: m, key => if k = key then some v else mapGet m key

/-- Assignment `m[k] = v`. -/
def mapSet : List (String × String) → String → String → List (String × String)
  | [], key, val => [(key, val)]
  | (k, v) :: m, key, val => if k = key then (k, val) :: m else (k, v) :: mapSet m key val

/-- Go indexing `m[k]`: the zero value `""` when the key is missing. -/
def mapIndex (m : List (String × String)) (k : String) : String :=
  (mapGet m k).getD ""

/-- Library `mergo.Merge(&dst, src, mergo.WithOverride)` on string maps: every
entry of `src` is assigned into `dst`.  Go visits the entries of `src` in an
unspecified order, which is immaterial as the keys of a map are distinct. -/
def mergoMergeWithOverride (dst : List (String × String)) :
    List (String × String) → List (String × String)
  | [] => dst
  | (k, v) :: src => mapSet (mergoMergeWithOverride dst src) k v

/-! ## Errors -/

/-- Go `error` values: the two API status reasons the code inspects, and
everything else (other API failures, `fmt.Errorf` values). -/
inductive Error where
  | AlreadyExists
  | NotFound
  | Other (msg : String)
deriving DecidableEq, Repr

/-- Library `k8sErrors.IsAlreadyExists`. -/
def IsAlreadyExists : Error → Bool
  | Error.AlreadyExists => true
  | _ => false

/-- Library `k8sErrors.IsNotFound`. -/
def IsNotFound : Error → Bool
  | Error.NotFound => true
  | _ => false

/-! ## Objects -/

/-- A `*metav1.Time`: the address of the pointed value and the value. -/
structure TimePtr where
  addr : Nat
  time : Nat
deriving DecidableEq, Repr

structure OwnerReference where
  Kind : String
  APIVersion : String
  Name : String
  UID : String
deriving DecidableEq, Repr

structure ObjectMeta where
  Name : String
  Namespace : String
  UID : String := ""
  ResourceVersion : String := ""
  DeletionTimestamp : Option TimePtr := none
  Finalizers : List String := []
  Labels : List (String × String) := []
  Annotations : List (String × String) := []
  OwnerReferences : List OwnerReference := []
deriving DecidableEq, Repr

/-- An arbitrary JSON value, the content of the trigger's `Payload`. -/
inductive Json where
  | null
  | bool (b : Bool)
  | num (n : Int)
  | str (s : String)
  | arr (items : List Json)
  | obj (fields : List (String × Json))

structure CronJobTriggerSpec where
  FunctionName : String
  Schedule : String
  Payload : Json

structure CronJobTrigger where
  ObjectMeta : ObjectMeta
  Spec : CronJobTriggerSpec

structure ServicePort where
  Port : Int
deriving DecidableEq, Repr

structure ServiceSpec where
  Ports : List ServicePort := []
deriving DecidableEq, Repr

structure FunctionSpec where
  Timeout : String := ""
  ServiceSpec : ServiceSpec := {}
deriving DecidableEq, Repr

structure Function where
  ObjectMeta : ObjectMeta
  Spec : FunctionSpec := {}
deriving DecidableEq, Repr

structure EnvVar where
  Name : String
  FieldPath : String
deriving DecidableEq, Repr

structure Container where
  Image : String
  Name : String
  Env : List EnvVar
  Command : List String
  Args : List String
  Limits : List (String × String)
  Requests : List (String × String)
deriving DecidableEq, Repr

/-- The `batchv1beta1.CronJobSpec` with its job template flattened:
`JobTemplate.Spec.ActiveDeadlineSeconds`, `JobTemplate.Spec.Template.ObjectMeta`
(`TemplateLabels`, `TemplateAnnotations`) and `JobTemplate.Spec.Template.Spec`
(`ImagePullSecrets`, `Containers`, `RestartPolicy`). -/
structure CronJobSpec where
  Schedule : String
  SuccessfulJobsHistoryLimit : Option Int
  FailedJobsHistoryLimit : Option Int
  ActiveDeadlineSeconds : Option Int
  TemplateLabels : List (String × String)
  TemplateAnnotations : List (String × String)
  ImagePullSecrets : List String
  Containers : List Container
  RestartPolicy : String
deriving DecidableEq, Repr

structure CronJob where
  ObjectMeta : ObjectMeta
  Spec : CronJobSpec
deriving DecidableEq, Repr

/-! ## Library functions and the package parts outside these files -/

/-- Library `strconv.Atoi` for a 64-bit `int`: the value and the error.  A
syntax error gives the value 0; a range error gives the nearest bound. -/
def Atoi (s : String) : Int × Option Error :=
  match s.toList with
  | [] => (0, some (Error.Other "strconv.Atoi: invalid syntax"))
  | c :: rest =>
    let neg : Bool := c = '-'
    let ds := if c = '-' ∨ c = '+' then rest else c :: rest
    if ds = [] then (0, some (Error.Other "strconv.Atoi: invalid syntax"))
    else if ds.all Char.isDigit then
      let un : Nat := ds.foldl (fun n ch => n * 10 + (ch.toNat - 48)) 0
      if !neg && decide (2 ^ 63 ≤ un) then
        (2 ^ 63 - 1, some (Error.Other "strconv.Atoi: value out of range"))
      else if neg && decide (2 ^ 63 < un) then
        (-(2 ^ 63), some (Error.Other "strconv.Atoi: value out of range"))
      else (if neg then -(un : Int) else (un : Int), none)
    else (0, some (Error.Other "strconv.Atoi: invalid syntax"))

/-- Library `strconv.Itoa`. -/
def Itoa (n : Int) : String := toString n

/-- What the code takes from outside the two files: the package constant
`defaultTimeout`, the library `json.Marshal` on the payload, and
`kubelessutils.GetOwnerReference`. -/
structure Deps where
  defaultTimeout : String
  jsonMarshal : Json → Except Error String
  GetOwnerReference : String → String → String → String → Except Error (List OwnerReference)

/-! ## The cluster API -/

/-- A call issued to the cluster API. -/
inductive Call where
  | CronJobsCreate (job : CronJob)
  | CronJobsGet (ns name : String)
  | CronJobsUpdate (job : CronJob)
  | CronJobsDelete (ns name : String)
  | CronJobTriggersUpdate (t : CronJobTrigger)
  | CronJobTriggersList (ns : String)
  | CronJobTriggersDelete (ns name : String)
  | FunctionsGet (ns name : String)

/-- The cluster: the stored objects, the calls issued so far, the fault plan
(`faults n` is the failure of the call issued as number `n`) and the time the
API server stamps on an object it marks for deletion. -/
structure Cluster where
  CronJobs : List CronJob := []
  CronJobTriggers : List CronJobTrigger := []
  Functions : List Function := []
  calls : List Call := []
  faults : Nat → Option Error := fun _ => none
  now : Nat := 0

/-- Whether object metadata carries the given namespace and name. -/
def named (ns name : String) (m : ObjectMeta) : Bool :=
  m.Namespace = ns && m.Name = name

/-- The stored cron job of a namespace and name. -/
def findCronJob (jobs : List CronJob) (ns name : String) : Option CronJob :=
  jobs.find? (fun j => named ns name j.ObjectMeta)

/-- The stored trigger of a namespace and name. -/
def findTrigger (ts : List CronJobTrigger) (ns name : String) : Option CronJobTrigger :=
  ts.find? (fun t => named ns name t.ObjectMeta)

/-- The stored function of a namespace and name. -/
def findFunction (fs : List Function) (ns name : String) : Option Function :=
  fs.find? (fun f => named ns name f.ObjectMeta)

/-- Record a call in the log. -/
def Cluster.record (c : Cluster) (call : Call) : Cluster :=
  { c with calls := c.calls ++ [call] }

/-- API `CronJobs(ns).Create(job)`. -/
def CronJobsCreate (c : Cluster) (ns : String) (job : CronJob) : Option Error × Cluster :=
  let c1 := c.record (Call.CronJobsCreate job)
  match c.faults c.calls.length with
  | some e => (some e, c1)
  | none =>
    match findCronJob c.CronJobs ns job.ObjectMeta.Name with
    | some _ => (some Error.AlreadyExists, c1)
    | none => (none, { c1 with CronJobs := c1.CronJobs ++ [job] })

/-- API `CronJobs(ns).Get(name)`. -/
def CronJobsGet (c : Cluster) (ns name : String) : Except Error CronJob × Cluster :=
  let c1 := c.record (Call.CronJobsGet ns name)
  match c.faults c.calls.length with
  | some e => (Except.error e, c1)
  | none =>
    match findCronJob c.CronJobs ns name with
    | some j => (Except.ok j, c1)
    | none => (Except.error Error.NotFound, c1)

/-- API `CronJobs(ns).Update(job)`. -/
def CronJobsUpdate (c : Cluster) (ns : String) (job : CronJob) : Option Error × Cluster :=
  let c1 := c.record (Call.CronJobsUpdate job)
  match c.faults c.calls.length with
  | some e => (some e, c1)
  | none =>
    match findCronJob c.CronJobs ns job.ObjectMeta.Name with
    | none => (some Error.NotFound, c1)
    | some _ =>
      (none, { c1 with CronJobs := c1.CronJobs.map (fun j =>
        if named ns job.ObjectMeta.Name j.ObjectMeta then job else j) })

/-- API `CronJobs(ns).Delete(name)`. -/
def CronJobsDelete (c : Cluster) (ns name : String) : Option Error × Cluster :=
  let c1 := c.record (Call.CronJobsDelete ns name)
  match c.faults c.calls.length with
  | some e => (some e, c1)
  | none =>
    match findCronJob c.CronJobs ns name with
    | none => (some Error.NotFound, c1)
    | some _ =>
      (none, { c1 with CronJobs := c1.CronJobs.filter (fun j => !named ns name j.ObjectMeta) })

/-- API `CronJobTriggers(ns).Update(t)`. -/
def CronJobTriggersUpdate (c : Cluster) (ns : String) (t : CronJobTrigger) :
    Option Error × Cluster :=
  let c1 := c.record (Call.CronJobTriggersUpdate t)
  match c.faults c.calls.length with
  | some e => (some e, c1)
  | none =>
    match findTrigger c.CronJobTriggers ns t.ObjectMeta.Name with
    | none => (some Error.NotFound, c1)
    | some _ =>
      (none, { c1 with CronJobTriggers := c1.CronJobTriggers.map (fun x =>
        if named ns t.ObjectMeta.Name x.ObjectMeta then t else x) })

/-- API `Functions(ns).Get(name)`. -/
def FunctionsGet (c : Cluster) (ns name : String) : Except Error Function × Cluster :=
  let c1 := c.record (Call.FunctionsGet ns name)
  match c.faults c.calls.length with
  | some e => (Except.error e, c1)
  | none =>
    match findFunction c.Functions ns name with
    | some f => (Except.ok f, c1)
    | none => (Except.error Error.NotFound, c1)

/-- API `CronJobTriggers(ns).List`: the stored triggers of the namespace, of
all namespaces when `ns` is empty. -/
def CronJobTriggersList (c : Cluster) (ns : String) :
    Except Error (List CronJobTrigger) × Cluster :=
  let c1 := c.record (Call.CronJobTriggersList ns)
  match c.faults c.calls.length with
  | some e => (Except.error e, c1)
  | none =>
    (Except.ok (c.CronJobTriggers.filter (fun t =>
      decide (ns = "") || decide (t.ObjectMeta.Namespace = ns))), c1)

/-- API `CronJobTriggers(ns).Delete(name)`: a trigger without finalizers is
removed, a trigger with finalizers stays and gets its deletion timestamp. -/
def CronJobTriggersDelete (c : Cluster) (ns name : String) : Option Error × Cluster :=
  let c1 := c.record (Call.CronJobTriggersDelete ns name)
  match c.faults c.calls.length with
  | some e => (some e, c1)
  | none =>
    match findTrigger c.CronJobTriggers ns name with
    | none => (some Error.NotFound, c1)
    | some _ =>
      (none, { c1 with CronJobTriggers := c1.CronJobTriggers.filterMap (fun t =>
        if named ns name t.ObjectMeta then
          if t.ObjectMeta.Finalizers = [] then none
          else if t.ObjectMeta.DeletionTimestamp ≠ none then some t
          else some { t with ObjectMeta :=
            { t.ObjectMeta with DeletionTimestamp := some { addr := 0, time := c.now } } }
        else some t) })

/-! ## `pkg/utils/kubelessutil.go` -/

def addDefaultLabel (labels : List (String × String)) : List (String × String) :=
  mapSet labels "created-by" "kubeless"

def hasDefaultLabel (labels : List (String × String)) : Bool :=
  if mapIndex labels "created-by" ≠ "kubeless" then false else true

def mergeMaps (m1 m2 : List (String × String)) : List (String × String) :=
  let dest : List (String × String) := []
  let dest := mergoMergeWithOverride dest m2
  let dest := mergoMergeWithOverride dest m1
  dest

/-- The header arguments of the request command. -/
def headers : String :=
  let payloadContentType := "application/json"
  let eventId := "\"Event-Id: $(POD_UID)\""
  let eventTime := "\"Event-Time: $(date --rfc-3339=seconds --utc)\""
  let eventNamespace := "\"Event-Namespace: cronjobtrigger.kubeless.io\""
  let eventType := "\"Event-Type: " ++ payloadContentType ++ "\""
  let contentType := "\"Content-Type: " ++ payloadContentType ++ "\""
  "-H " ++ eventId ++ " -H " ++ eventTime ++ " -H " ++ eventNamespace ++ " -H " ++ eventType
    ++ " -H " ++ contentType

/-- Lines 39 to 150 of `EnsureCronJob`: the job description, or the error the
function returns before it issues any call. -/
def buildCronJob (d : Deps) (funcObj : Function) (cronjobTriggerObj : CronJobTrigger)
    (reqImage : String) (or : List OwnerReference) (reqImagePullSecret : List String) :
    Except Error CronJob :=
  let maxSucccessfulHist : Int := 3
  let maxFailedHist : Int := 1
  let timeoutOrErr : Except Error Int :=
    if funcObj.Spec.Timeout ≠ "" then
      match Atoi funcObj.Spec.Timeout with
      | (t, none) => Except.ok t
      | (_, some _) =>
        Except.error
          (Error.Other ("Unable convert " ++ funcObj.Spec.Timeout ++ " to a valid timeout"))
    else Except.ok (Atoi d.defaultTimeout).1
  match timeoutOrErr with
  | Except.error e => Except.error e
  | Except.ok timeout =>
    let schedule := cronjobTriggerObj.Spec.Schedule
    match d.jsonMarshal cronjobTriggerObj.Spec.Payload with
    | Except.error _ =>
      Except.error (Error.Other "Found an error during JSON parsing on your payload")
    | Except.ok payload =>
      let activeDeadlineSeconds : Int := timeout
      let jobName := "trigger-" ++ funcObj.ObjectMeta.Name
      let functionPort :=
        match funcObj.Spec.ServiceSpec.Ports with
        | [] => "8080"
        | p :: _ => Itoa p.Port
      let functionEndpoint := "http://" ++ funcObj.ObjectMeta.Name ++ "." ++
        funcObj.ObjectMeta.Namespace ++ ".svc.cluster.local:" ++ functionPort
      let command := "curl -Lv " ++ headers ++ " " ++ functionEndpoint
      let mergedLabels := mergeMaps cronjobTriggerObj.ObjectMeta.Labels funcObj.ObjectMeta.Labels
      let mergedAnnotations :=
        mergeMaps cronjobTriggerObj.ObjectMeta.Annotations funcObj.ObjectMeta.Annotations
      let command := if payload ≠ "null" then command ++ (" -d '" ++ payload ++ "'") else command
      Except.ok
        { ObjectMeta :=
            { Name := jobName
              Namespace := funcObj.ObjectMeta.Namespace
              Labels := addDefaultLabel mergedLabels
              Annotations := mergedAnnotations
              OwnerReferences := or }
          Spec :=
            { Schedule := schedule
              SuccessfulJobsHistoryLimit := some maxSucccessfulHist
              FailedJobsHistoryLimit := some maxFailedHist
              ActiveDeadlineSeconds := some activeDeadlineSeconds
              TemplateLabels := addDefaultLabel mergedLabels
              TemplateAnnotations := mergedAnnotations
              ImagePullSecrets := reqImagePullSecret
              Containers :=
                [{ Image := reqImage
                   Name := "trigger"
                   Env := [{ Name := "POD_UID", FieldPath := "metadata.uid" }]
                   Command := ["/bin/sh", "-c"]
                   Args := [command]
                   Limits := [("memory", "64Mi"), ("cpu", "100m")]
                   Requests := [("memory", "16Mi"), ("cpu", "10m")] }]
              RestartPolicy := "Never" } }

/-- EnsureCronJob creates/updates a function cron job. -/
def EnsureCronJob (d : Deps) (client : Cluster) (funcObj : Function)
    (cronjobTriggerObj : CronJobTrigger) (reqImage : String) (or : List OwnerReference)
    (reqImagePullSecret : List String) : Option Error × Cluster :=
  match buildCronJob d funcObj cronjobTriggerObj reqImage or reqImagePullSecret with
  | Except.error e => (some e, client)
  | Except.ok job =>
    let jobName := "trigger-" ++ funcObj.ObjectMeta.Name
    match CronJobsCreate client funcObj.ObjectMeta.Namespace job with
    | (some err, client1) =>
      if IsAlreadyExists err then
        match CronJobsGet client1 funcObj.ObjectMeta.Namespace jobName with
        | (Except.error err, client2) => (some err, client2)
        | (Except.ok newCronJob, client2) =>
          if !hasDefaultLabel newCronJob.ObjectMeta.Labels then
            (some (Error.Other ("Found a conflicting cronjob object " ++
              funcObj.ObjectMeta.Namespace ++ "/" ++ funcObj.ObjectMeta.Name ++ ". Aborting")),
              client2)
          else
            let newCronJob :=
              { newCronJob with ObjectMeta :=
                  { newCronJob.ObjectMeta with Labels := funcObj.ObjectMeta.Labels } }
            let newCronJob :=
              { newCronJob with ObjectMeta :=
                  { newCronJob.ObjectMeta with OwnerReferences := or } }
            let newCronJob := { newCronJob with Spec := job.Spec }
            CronJobsUpdate client2 funcObj.ObjectMeta.Namespace newCronJob
      else (some err, client1)
    | (none, client1) => (none, client1)

/-- Modelled from the spec: `UpdateCronJobCustomResource` of `pkg/utils`, whose
source is not among the files, persists the given trigger with an update call
on the trigger client, in the trigger's namespace, and returns that call's
error. -/
def UpdateCronJobCustomResource (client : Cluster) (cronJob : CronJobTrigger) :
    Option Error × Cluster :=
  CronJobTriggersUpdate client cronJob.ObjectMeta.Namespace cronJob

/-! ## Library `cache`: keys and the informer's indexer -/

/-- Library `strings.Split(s, "/")` on the characters of `s`. -/
def splitSlash : List Char → List (List Char)
  | [] => [[]]
  | c :: cs =>
    match splitSlash cs with
    | [] => [[]]
    | p :: ps => if c = '/' then [] :: p :: ps else (c :: p) :: ps

/-- Library `cache.SplitMetaNamespaceKey`. -/
def SplitMetaNamespaceKey (key : String) : Except Error (String × String) :=
  match splitSlash key.toList with
  | [name] => Except.ok ("", String.mk name)
  | [ns, name] => Except.ok (String.mk ns, String.mk name)
  | _ => Except.error (Error.Other ("unexpected key format: " ++ key))

/-- Library `cache.MetaNamespaceKeyFunc` on object metadata. -/
def MetaNamespaceKeyFunc (m : ObjectMeta) : String :=
  if m.Namespace.length > 0 then m.Namespace ++ "/" ++ m.Name else m.Name

/-- Library `Indexer.GetByKey` on the informer's store, the list of cached
triggers: the object, whether it exists, and the error, which the store never
sets. -/
def GetByKey (store : List CronJobTrigger) (key : String) :
    Option CronJobTrigger × Bool × Option Error :=
  match store.find? (fun t => MetaNamespaceKeyFunc t.ObjectMeta = key) with
  | some t => (some t, true, none)
  | none => (none, false, none)

/-! ## `pkg/controller/cronjob_trigger_controller.go` -/

def cronJobTriggerMaxRetries : Nat := 11
def cronJobObjKind : String := "Trigger"
def cronJobAPIVersion : String := "kubeless.io/v1beta1"
def cronJobTriggerFinalizer : String := "kubeless.io/cronjobtrigger"

/-- The controller's fields that the reconcile reads: the store of the trigger
informer, `config.Data["provision-image"]` and the image pull secrets.  The
clients are the `Cluster` passed along, the queue is passed along as well. -/
structure CronJobTriggerController where
  cronJobInformer : List CronJobTrigger := []
  provisionImage : String := ""
  imagePullSecrets : List String := []

def cronJobTriggerObjHasFinalizer (triggerObj : CronJobTrigger) : Bool :=
  let currentFinalizers := triggerObj.ObjectMeta.Finalizers
  currentFinalizers.any (fun f => f = cronJobTriggerFinalizer)

def cronJobTriggerObjAddFinalizer (client : Cluster) (triggercObj : CronJobTrigger) :
    Option Error × Cluster :=
  let triggercObjClone := triggercObj
  let triggercObjClone :=
    { triggercObjClone with ObjectMeta :=
        { triggercObjClone.ObjectMeta with
          Finalizers := triggercObjClone.ObjectMeta.Finalizers ++ [cronJobTriggerFinalizer] } }
  UpdateCronJobCustomResource client triggercObjClone

def cronJobTriggerObjRemoveFinalizer (client : Cluster) (triggercObj : CronJobTrigger) :
    Option Error × Cluster :=
  let triggerObjClone := triggercObj
  let newSlice := triggerObjClone.ObjectMeta.Finalizers.filter
    (fun item => !decide (item = cronJobTriggerFinalizer))
  let triggerObjClone :=
    { triggerObjClone with ObjectMeta :=
        { triggerObjClone.ObjectMeta with Finalizers := newSlice } }
  match UpdateCronJobCustomResource client triggerObjClone with
  | (some err, client) => (some err, client)
  | (none, client) => (none, client)

def syncCronJobTrigger (d : Deps) (c : CronJobTriggerController) (client : Cluster)
    (key : String) : Option Error × Cluster :=
  match SplitMetaNamespaceKey key with
  | Except.error err => (some err, client)
  | Except.ok (ns, name) =>
    match GetByKey c.cronJobInformer key with
    | (_, _, some err) =>
      (some (Error.Other ("Error fetching object with key " ++ key ++ " from store: " ++
        reprStr err)), client)
    | (none, _, none) => (none, client)
    | (some _, false, none) => (none, client)
    | (some cronJobtriggerObj, true, none) =>
      if cronJobtriggerObj.ObjectMeta.DeletionTimestamp ≠ none then
        if !cronJobTriggerObjHasFinalizer cronJobtriggerObj then (none, client)
        else
          match CronJobsDelete client ns name with
          | (some err, client) =>
            if !IsNotFound err then (some err, client)
            else cronJobTriggerObjRemoveFinalizer client cronJobtriggerObj
          | (none, client) => cronJobTriggerObjRemoveFinalizer client cronJobtriggerObj
      else
        let added : Option Error × Cluster :=
          if !cronJobTriggerObjHasFinalizer cronJobtriggerObj then
            cronJobTriggerObjAddFinalizer client cronJobtriggerObj
          else (none, client)
        match added with
        | (some err, client) => (some err, client)
        | (none, client) =>
          match d.GetOwnerReference cronJobObjKind cronJobAPIVersion
              cronJobtriggerObj.ObjectMeta.Name cronJobtriggerObj.ObjectMeta.UID with
          | Except.error err => (some err, client)
          | Except.ok or =>
            match FunctionsGet client ns cronJobtriggerObj.Spec.FunctionName with
            | (Except.error err, client) => (some err, client)
            | (Except.ok functionObj, client) =>
              EnsureCronJob d client functionObj cronJobtriggerObj c.provisionImage or
                c.imagePullSecrets

/-- The first test compares the two `DeletionTimestamp` fields, which are
pointers (`*metav1.Time`), with `!=`: Go compares the addresses, not the times
they point to. -/
def cronJobTriggerObjChanged (oldObj newObj : CronJobTrigger) : Bool :=
  if oldObj.ObjectMeta.DeletionTimestamp.map TimePtr.addr ≠
      newObj.ObjectMeta.DeletionTimestamp.map TimePtr.addr then true
  else if oldObj.ObjectMeta.ResourceVersion ≠ newObj.ObjectMeta.ResourceVersion then true
  else
    let newSpec := newObj.Spec
    let oldSpec := oldObj.Spec
    if newSpec.Schedule ≠ oldSpec.Schedule then true
    else false

/-- The object an informer hands to an event handler (`interface{}`): a
function, a `cache.DeletedFinalStateUnknown` tombstone around another object,
or anything else. -/
inductive InformerObject where
  | Function (f : Function)
  | DeletedFinalStateUnknown (Key : String) (Obj : InformerObject)
  | Other (description : String)

/-- The loop of `functionAddedDeletedUpdated` over `cjtList.Items`. -/
def deleteCronJobTriggersOf (functionObj : Function) :
    List CronJobTrigger → Cluster → Option Error × Cluster
  | [], client => (none, client)
  | cjt :: rest, client =>
    if cjt.Spec.FunctionName = functionObj.ObjectMeta.Name then
      match CronJobTriggersDelete client functionObj.ObjectMeta.Namespace
          cjt.ObjectMeta.Name with
      | (some err, client) =>
        if !IsNotFound err then (some err, client)
        else deleteCronJobTriggersOf functionObj rest client
      | (none, client) => deleteCronJobTriggersOf functionObj rest client
    else deleteCronJobTriggersOf functionObj rest client

def functionAddedDeletedUpdated (client : Cluster) (obj : InformerObject) (deleted : Bool) :
    Option Error × Cluster :=
  let resolved : Except Error Function :=
    match obj with
    | InformerObject.Function functionObj => Except.ok functionObj
    | InformerObject.DeletedFinalStateUnknown _ (InformerObject.Function functionObj) =>
      Except.ok functionObj
    | InformerObject.DeletedFinalStateUnknown _ _ =>
      Except.error (Error.Other "Tombstone contained object that is not a Pod")
    | InformerObject.Other _ => Except.error (Error.Other "Couldn't get object from tombstone")
  match resolved with
  | Except.error err => (some err, client)
  | Except.ok functionObj =>
    if deleted then
      match CronJobTriggersList client functionObj.ObjectMeta.Namespace with
      | (Except.error err, client) => (some err, client)
      | (Except.ok cjtList, client) => deleteCronJobTriggersOf functionObj cjtList client
    else (none, client)

/-! ## Library `workqueue`: the rate-limited queue -/

/-- The rate-limiting work queue of client-go: the keys waiting in order, the
`dirty` and `processing` sets, the failure count the rate limiter keeps per key
and the shutdown flag.  The delay of a rate-limited add is taken as elapsed. -/
structure RateLimitingQueue where
  queue : List String := []
  dirty : List String := []
  processing : List String := []
  failures : String → Nat := fun _ => 0
  shuttingDown : Bool := false

namespace RateLimitingQueue

/-- Queue `Add`: nothing when shutting down or already dirty; a key being
processed is only marked dirty. -/
def Add (q : RateLimitingQueue) (item : String) : RateLimitingQueue :=
  if q.shuttingDown then q
  else if q.dirty.contains item then q
  else
    let q := { q with dirty := q.dirty ++ [item] }
    if q.processing.contains item then q else { q with queue := q.queue ++ [item] }

/-- Queue `Get`: the first waiting key, now in `processing` and out of `dirty`
(the sets are lists, a key is taken out by filtering); the stop
indicator when the queue is empty and shut down; `none` while the caller stays
blocked on an empty queue. -/
def Get (q : RateLimitingQueue) : Option ((String × Bool) × RateLimitingQueue) :=
  match q.queue with
  | [] => if q.shuttingDown then some (("", true), q) else none
  | item :: rest =>
    some ((item, false),
      { q with queue := rest, processing := q.processing ++ [item],
               dirty := q.dirty.filter (fun k => !decide (k = item)) })

/-- Queue `Done`: the key is no longer processed and waits again when it was
marked dirty meanwhile. -/
def Done (q : RateLimitingQueue) (item : String) : RateLimitingQueue :=
  let q := { q with processing := q.processing.filter (fun k => !decide (k = item)) }
  if q.dirty.contains item then { q with queue := q.queue ++ [item] } else q

/-- Queue `NumRequeues`. -/
def NumRequeues (q : RateLimitingQueue) (item : String) : Nat :=
  q.failures item

/-- Queue `Forget`: the rate limiter drops the key's failure count. -/
def Forget (q : RateLimitingQueue) (item : String) : RateLimitingQueue :=
  { q with failures := fun k => if k = item then 0 else q.failures k }

/-- Queue `AddRateLimited`: the rate limiter counts one more failure of the
key, and the key is added. -/
def AddRateLimited (q : RateLimitingQueue) (item : String) : RateLimitingQueue :=
  let q := { q with failures := fun k => if k = item then q.failures k + 1 else q.failures k }
  q.Add item

end RateLimitingQueue

/-- One pass of the worker.  The result is `none` while the worker stays
blocked in `Get`; otherwise the boolean the function returns, the queue and
the cluster after the pass. -/
def processNextItem (d : Deps) (c : CronJobTriggerController) (queue : RateLimitingQueue)
    (client : Cluster) : Option (Bool × RateLimitingQueue × Cluster) :=
  match queue.Get with
  | none => none
  | some ((key, quit), queue) =>
    if quit then some (false, queue, client)
    else
      let (err, client) := syncCronJobTrigger d c client key
      let queue :=
        if err = none then queue.Forget key
        else if queue.NumRequeues key < cronJobTriggerMaxRetries then queue.AddRateLimited key
        else queue.Forget key
      some (true, queue.Done key, client)

/-- The loop of `runWorker` cut after `n` passes: the queue and the cluster
then, or where the loop left (stop indicator) or stays blocked before. -/
def runWorker (d : Deps) (c : CronJobTriggerController) :
    Nat → RateLimitingQueue → Cluster → RateLimitingQueue × Cluster
  | 0, queue, client => (queue, client)
  | n + 1, queue, client =>
    match processNextItem d c queue client with
    | none => (queue, client)
    | some (false, queue, client) => (queue, client)
    | some (true, queue, client) => runWorker d c n queue client

/-! ## Concrete collaborators and objects for the examples -/

mutual
/-- Library `json.Marshal` on a decoded JSON value whose strings need no
escaping and whose object fields are listed in key order. -/
def marshalJSON : Json → String
  | Json.null => "null"
  | Json.bool b => if b then "true" else "false"
  | Json.num n => toString n
  | Json.str s => "\"" ++ s ++ "\""
  | Json.arr items => "[" ++ marshalItems items ++ "]"
  | Json.obj fields => "\x7b" ++ marshalFields fields ++ "\x7d"
/-- The elements of an array, comma separated. -/
def marshalItems : List Json → String
  | [] => ""
  | x :: xs =>
    match xs with
    | [] => marshalJSON x
    | _ :: _ => marshalJSON x ++ "," ++ marshalItems xs
/-- The fields of an object, comma separated. -/
def marshalFields : List (String × Json) → String
  | [] => ""
  | (k, v) :: fs =>
    match fs with
    | [] => "\"" ++ k ++ "\":" ++ marshalJSON v
    | _ :: _ => "\"" ++ k ++ "\":" ++ marshalJSON v ++ "," ++ marshalFields fs
end

/-- Library `kubelessutils.GetOwnerReference` of kubeless: one owner reference,
or an error when the name or the uid is empty. -/
def GetOwnerReference (kind apiVersion name uid : String) :
    Except Error (List OwnerReference) :=
  if name = "" then Except.error (Error.Other "name can't be empty")
  else if uid = "" then Except.error (Error.Other "uid can't be empty")
  else Except.ok [{ Kind := kind, APIVersion := apiVersion, Name := name, UID := uid }]

/-- The collaborators as kubeless ships them, with the default timeout 180. -/
def kubelessDeps : Deps :=
  { defaultTimeout := "180"
    jsonMarshal := fun p => Except.ok (marshalJSON p)
    GetOwnerReference := GetOwnerReference }

/-- Function `fn1` in `ns`: no labels, no ports, no timeout. -/
def fn1 : Function := { ObjectMeta := { Name := "fn1", Namespace := "ns" } }

/-- Trigger `t1` in `ns` on function `fn1`, without the finalizer. -/
def t1 : CronJobTrigger :=
  { ObjectMeta := { Name := "t1", Namespace := "ns", UID := "uid-t1" }
    Spec := { FunctionName := "fn1", Schedule := "*/5 * * * *",
              Payload := Json.obj [("a", Json.num 1)] } }

/-- Trigger `t1` carrying the controller's finalizer. -/
def t1Finalized : CronJobTrigger :=
  { t1 with ObjectMeta := { t1.ObjectMeta with Finalizers := [cronJobTriggerFinalizer] } }

/-- Trigger `t1` with the finalizer and a deletion timestamp. -/
def t1Deleting : CronJobTrigger :=
  { t1 with ObjectMeta :=
      { t1.ObjectMeta with Finalizers := [cronJobTriggerFinalizer],
                           DeletionTimestamp := some { addr := 1, time := 100 } } }

/-- The owner reference of `t1`. -/
def t1Owner : List OwnerReference :=
  [{ Kind := cronJobObjKind, APIVersion := cronJobAPIVersion, Name := "t1", UID := "uid-t1" }]

/-- A cluster holding `fn1` and the finalized `t1`, and no job. -/
def clusterFn1 : Cluster := { CronJobTriggers := [t1Finalized], Functions := [fn1] }

/-- The cluster after `EnsureCronJob` has been applied once for `t1` and `fn1`. -/
def afterFirstEnsure : Cluster :=
  (EnsureCronJob kubelessDeps clusterFn1 fn1 t1Finalized "img" t1Owner []).2

/-- The cluster after the same application a second time. -/
def afterSecondEnsure : Cluster :=
  (EnsureCronJob kubelessDeps afterFirstEnsure fn1 t1Finalized "img" t1Owner []).2

/-- A job named `trigger-fn1` in `ns` that somebody else created: no labels. -/
def foreignJob : CronJob :=
  { ObjectMeta := { Name := "trigger-fn1", Namespace := "ns" }
    Spec :=
      { Schedule := "0 0 * * *", SuccessfulJobsHistoryLimit := none,
        FailedJobsHistoryLimit := none, ActiveDeadlineSeconds := none, TemplateLabels := [],
        TemplateAnnotations := [], ImagePullSecrets := [], Containers := [],
        RestartPolicy := "OnFailure" } }

/-- Whether a call is an update of a cron job. -/
def Call.isCronJobsUpdate : Call → Bool
  | Call.CronJobsUpdate _ => true
  | _ => false

/-- A cluster holding `t1` without its finalizer and no function. -/
def clusterNoFunction : Cluster := { CronJobTriggers := [t1] }

/-- A cluster holding `t1` without its finalizer and the function `fn1`. -/
def clusterT1 : Cluster := { CronJobTriggers := [t1], Functions := [fn1] }

/-- The deleting `t1` decoded a second time: the same deletion time behind
another pointer. -/
def t1DeletingCopy : CronJobTrigger :=
  { t1Deleting with ObjectMeta :=
      { t1Deleting.ObjectMeta with DeletionTimestamp := some { addr := 2, time := 100 } } }

/-- Function `fn2` in `ns` with labels of its own, a declared port and a timeout. -/
def fn2 : Function :=
  { ObjectMeta := { Name := "fn2", Namespace := "ns",
                    Labels := [("app", "fn"), ("created-by", "someone"), ("tier", "backend")] }
    Spec := { Timeout := "30", ServiceSpec := { Ports := [{ Port := 9090 }] } } }

/-- Trigger `t2` in `ns` on function `fn2`, with a label and no payload. -/
def t2 : CronJobTrigger :=
  { ObjectMeta := { Name := "t2", Namespace := "ns", UID := "uid-t2",
                    Finalizers := [cronJobTriggerFinalizer], Labels := [("app", "trig")] }
    Spec := { FunctionName := "fn2", Schedule := "0 * * * *", Payload := Json.null } }

/-- The curl command of the job for `fn1` and `t1`. -/
def commandFn1 : String :=
  "curl -Lv " ++ headers ++ " http://fn1.ns.svc.cluster.local:8080 -d '\x7b\"a\":1\x7d'"

/-- Trigger `t3` in `ns`, a second trigger on function `fn1`, without finalizers. -/
def t3 : CronJobTrigger :=
  { ObjectMeta := { Name := "t3", Namespace := "ns", UID := "uid-t3" }
    Spec := { FunctionName := "fn1", Schedule := "0 12 * * *", Payload := Json.null } }

/-- Trigger `t4` on a function `fn1` of another namespace. -/
def t4 : CronJobTrigger :=
  { ObjectMeta := { Name := "t4", Namespace := "other", UID := "uid-t4" }
    Spec := { FunctionName := "fn1", Schedule := "0 12 * * *", Payload := Json.null } }

/-- A cluster holding the four triggers, `fn1` being already gone. -/
def clusterCascade : Cluster :=
  { CronJobTriggers := [t1Finalized, t2, t3, t4], Functions := [fn2] }


/-- Trigger `t3` carrying the controller's finalizer. -/
def t3Finalized : CronJobTrigger :=
  { t3 with ObjectMeta := { t3.ObjectMeta with Finalizers := [cronJobTriggerFinalizer] } }

/-- The controller whose cache holds `t1`, `t2` and `t3`, all finalized. -/
def controllerThree : CronJobTriggerController :=
  { cronJobInformer := [t1Finalized, t2, t3Finalized], provisionImage := "img" }

/-- A cluster holding the three finalized triggers and both functions, no job. -/
def clusterThree : Cluster :=
  { CronJobTriggers := [t1Finalized, t2, t3Finalized], Functions := [fn1, fn2] }


/-- A cluster holding the finalized `t1` whose function `fn1` does not exist. -/
def clusterMissingFunction : Cluster := { CronJobTriggers := [t1Finalized] }

/-! ## Lemmas on maps and on the job description -/

theorem mapIndex_ne_of_mapGet_ne {m : List (String × String)} {k v : String} (hv : v ≠ "")
    (h : mapGet m k ≠ some v) : mapIndex m k ≠ v := by
  unfold mapIndex
  cases hg : mapGet m k with
  | none => simpa using fun h' => hv h'.symm
  | some x =>
    rw [hg] at h
    simpa using fun h' => h (by rw [h'])

theorem buildCronJob_meta {d : Deps} {funcObj : Function} {trig : CronJobTrigger}
    {img : String} {or : List OwnerReference} {secrets : List String} {job : CronJob}
    (h : buildCronJob d funcObj trig img or secrets = Except.ok job) :
    job.ObjectMeta.Name = "trigger-" ++ funcObj.ObjectMeta.Name ∧
    job.ObjectMeta.Namespace = funcObj.ObjectMeta.Namespace ∧
    job.ObjectMeta.Labels =
      addDefaultLabel (mergeMaps trig.ObjectMeta.Labels funcObj.ObjectMeta.Labels) ∧
    job.ObjectMeta.OwnerReferences = or := by
  unfold buildCronJob at h
  simp only at h
  split at h
  · exact absurd h (by simp)
  · split at h
    · exact absurd h (by simp)
    · injection h with h
      subst h
      exact ⟨rfl, rfl, rfl, rfl⟩

theorem mapGet_mapSet (m : List (String × String)) (k v k' : String) :
    mapGet (mapSet m k v) k' = if k = k' then some v else mapGet m k' := by
  induction m with
  | nil => simp [mapSet, mapGet]
  | cons a m ih =>
    obtain ⟨ak, av⟩ := a
    by_cases h1 : ak = k
    · subst h1
      by_cases h2 : ak = k' <;> simp [mapSet, mapGet, h2]
    · by_cases h2 : ak = k'
      · subst h2
        have h3 : ¬ k = ak := fun e => h1 e.symm
        simp [mapSet, mapGet, h1, h3]
      · simp [mapSet, mapGet, h1, h2, ih]

theorem mapGet_mergo (dst src : List (String × String)) (k : String) :
    mapGet (mergoMergeWithOverride dst src) k =
      match mapGet src k with
      | some v => some v
      | none => mapGet dst k := by
  induction src with
  | nil => simp [mergoMergeWithOverride, mapGet]
  | cons a src ih =>
    obtain ⟨ak, av⟩ := a
    by_cases h : ak = k
    · simp [mergoMergeWithOverride, mapGet_mapSet, mapGet, h]
    · simp [mergoMergeWithOverride, mapGet_mapSet, mapGet, h, ih]

theorem mapGet_mergeMaps (m1 m2 : List (String × String)) (k : String) :
    mapGet (mergeMaps m1 m2) k =
      match mapGet m1 k with
      | some v => some v
      | none => mapGet m2 k := by
  simp only [mergeMaps, mapGet_mergo]
  cases mapGet m1 k with
  | some v => rfl
  | none =>
    cases mapGet m2 k with
    | some v => rfl
    | none => rfl

theorem buildCronJob_ok (d : Deps) (funcObj : Function) (trig : CronJobTrigger)
    (img : String) (or : List OwnerReference) (secrets : List String) (payload : String)
    (hp : d.jsonMarshal trig.Spec.Payload = Except.ok payload)
    (ht : funcObj.Spec.Timeout = "" ∨ (Atoi funcObj.Spec.Timeout).2 = none) :
    ∃ job, buildCronJob d funcObj trig img or secrets = Except.ok job := by
  unfold buildCronJob
  simp only [hp]
  by_cases h0 : funcObj.Spec.Timeout = ""
  · simp [h0]
  · rcases ht with ht | ht
    · exact absurd ht h0
    · cases ha : Atoi funcObj.Spec.Timeout with
      | mk t e =>
        rw [ha] at ht
        simp only at ht
        subst ht
        simp [h0]

theorem buildCronJob_spec {d : Deps} {funcObj : Function} {trig : CronJobTrigger}
    {img : String} {or : List OwnerReference} {secrets : List String} {job : CronJob}
    (h : buildCronJob d funcObj trig img or secrets = Except.ok job) :
    ∃ payload, d.jsonMarshal trig.Spec.Payload = Except.ok payload ∧
      job.Spec.Schedule = trig.Spec.Schedule ∧
      job.Spec.SuccessfulJobsHistoryLimit = some 3 ∧
      job.Spec.FailedJobsHistoryLimit = some 1 ∧
      (funcObj.Spec.Timeout = "" →
        job.Spec.ActiveDeadlineSeconds = some (Atoi d.defaultTimeout).1) ∧
      job.Spec.Containers.map Container.Args =
        [["curl -Lv " ++ headers ++ " " ++
          ("http://" ++ funcObj.ObjectMeta.Name ++ "." ++ funcObj.ObjectMeta.Namespace ++
            ".svc.cluster.local:" ++
            (match funcObj.Spec.ServiceSpec.Ports with
              | [] => "8080"
              | p :: _ => Itoa p.Port)) ++
          (if payload = "null" then "" else " -d '" ++ payload ++ "'")]] := by
  unfold buildCronJob at h
  simp only at h
  split at h
  · exact absurd h (by simp)
  · next timeout hto =>
    split at h
    · exact absurd h (by simp)
    · next payload hp =>
      injection h with h
      subst h
      refine ⟨payload, hp, rfl, rfl, rfl, ?_, ?_⟩
      · intro h0
        simp only [h0, ne_eq, not_true_eq_false, if_false] at hto
        injection hto with hto
        simp only [hto]
      · by_cases hn : payload = "null"
        · simp [hn]
        · simp [hn, String.append_assoc]

/-! ## Lemmas on the work queue -/

theorem not_mem_filter_ne (l : List String) (key : String) :
    key ∉ l.filter (fun k => !decide (k = key)) := by
  simp [List.mem_filter]

theorem processNextItem_eq (d : Deps) (c : CronJobTriggerController) (key : String)
    (q q1 : RateLimitingQueue) (client : Cluster)
    (hget : q.Get = some ((key, false), q1)) :
    processNextItem d c q client = some (true,
      RateLimitingQueue.Done
        (if (syncCronJobTrigger d c client key).1 = none then q1.Forget key
        else if q1.NumRequeues key < cronJobTriggerMaxRetries then q1.AddRateLimited key
        else q1.Forget key) key,
      (syncCronJobTrigger d c client key).2) := by
  simp only [processNextItem, hget]
  rfl

theorem Get_cons (q : RateLimitingQueue) (key : String) (rest : List String)
    (hq : q.queue = key :: rest) :
    ∃ q1, q.Get = some ((key, false), q1) ∧ q1.queue = rest ∧
      key ∉ q1.dirty ∧ key ∈ q1.processing ∧
      q1.failures = q.failures ∧ q1.shuttingDown = q.shuttingDown := by
  refine ⟨RateLimitingQueue.mk rest (q.dirty.filter (fun k => !decide (k = key)))
    (q.processing ++ [key]) q.failures q.shuttingDown, ?_, rfl, not_mem_filter_ne q.dirty key,
    by simp, rfl, rfl⟩
  simp only [RateLimitingQueue.Get, hq]

theorem processNextItem_step (d : Deps) (c : CronJobTriggerController) (key : String)
    (q : RateLimitingQueue) (client : Cluster) (rest : List String)
    (hq : q.queue = key :: rest) :
    ∃ q', processNextItem d c q client
        = some (true, q', (syncCronJobTrigger d c client key).2) ∧
      q'.shuttingDown = q.shuttingDown ∧
      ((syncCronJobTrigger d c client key).1 = none →
        q'.queue = rest ∧ q'.NumRequeues key = 0) ∧
      ((syncCronJobTrigger d c client key).1 ≠ none →
        q.NumRequeues key < cronJobTriggerMaxRetries → q.shuttingDown = false →
        q'.queue = rest ++ [key] ∧ q'.NumRequeues key = q.NumRequeues key + 1) ∧
      ((syncCronJobTrigger d c client key).1 ≠ none →
        ¬ q.NumRequeues key < cronJobTriggerMaxRetries →
        q'.queue = rest ∧ q'.NumRequeues key = 0) := by
  obtain ⟨q1, hget, hq1, hd1, hp1, hf1, hs1⟩ := Get_cons q key rest hq
  refine ⟨_, processNextItem_eq d c key q q1 client hget, ?_, ?_, ?_, ?_⟩
  · rw [← hs1]
    split
    · simp only [RateLimitingQueue.Forget, RateLimitingQueue.Done]
      split <;> rfl
    · split
      · simp only [RateLimitingQueue.AddRateLimited, RateLimitingQueue.Add,
          RateLimitingQueue.Done]
        repeat' split
        all_goals rfl
      · simp only [RateLimitingQueue.Forget, RateLimitingQueue.Done]
        split <;> rfl
  · intro herr
    simp [herr, RateLimitingQueue.Forget, RateLimitingQueue.Done, RateLimitingQueue.NumRequeues,
      hd1, hq1]
  · intro herr hn hs
    simp only [RateLimitingQueue.NumRequeues] at hn
    rw [← hs1] at hs
    simp [herr, hn, hs, RateLimitingQueue.AddRateLimited, RateLimitingQueue.Add,
      RateLimitingQueue.Done, RateLimitingQueue.NumRequeues, hd1, hp1, hq1, hf1]
  · intro herr hn
    simp only [RateLimitingQueue.NumRequeues] at hn
    simp [herr, hn, RateLimitingQueue.Forget, RateLimitingQueue.Done,
      RateLimitingQueue.NumRequeues, hd1, hq1, hf1]

theorem processNextItem_stop (d : Deps) (c : CronJobTriggerController)
    (q q' : RateLimitingQueue) (client client' : Cluster)
    (h : processNextItem d c q client = some (false, q', client')) :
    q' = q ∧ client' = client := by
  unfold processNextItem at h
  cases hq : q.queue with
  | nil =>
    cases hs : q.shuttingDown with
    | false => simp [RateLimitingQueue.Get, hq, hs] at h
    | true =>
      simp only [RateLimitingQueue.Get, hq, hs, if_true, Option.some.injEq, Prod.mk.injEq,
        true_and] at h
      exact ⟨h.1.symm, h.2.symm⟩
  | cons k rest => simp [RateLimitingQueue.Get, hq] at h

theorem runWorker_one (d : Deps) (c : CronJobTriggerController) (q q' : RateLimitingQueue)
    (client client' : Cluster) (h : processNextItem d c q client = some (true, q', client')) :
    runWorker d c 1 q client = (q', client') := by
  simp [runWorker, h]

theorem runWorker_snoc (d : Deps) (c : CronJobTriggerController) :
    ∀ (n : Nat) (q : RateLimitingQueue) (client : Cluster),
      runWorker d c (n + 1) q client =
        runWorker d c 1 (runWorker d c n q client).1 (runWorker d c n q client).2 := by
  intro n
  induction n with
  | zero => intro q client; rfl
  | succ n ih =>
    intro q client
    cases hp : processNextItem d c q client with
    | none =>
      have h1 : ∀ m, runWorker d c (m + 1) q client = (q, client) := by
        intro m; simp [runWorker, hp]
      rw [h1 (n + 1), h1 n]
      exact (h1 0).symm
    | some r =>
      obtain ⟨b, q', client'⟩ := r
      cases b with
      | false =>
        obtain ⟨hq, hcl⟩ := processNextItem_stop d c q q' client client' hp
        subst hq hcl
        have h1 : ∀ m, runWorker d c (m + 1) q' client' = (q', client') := by
          intro m; simp [runWorker, hp]
        rw [h1 (n + 1), h1 n]
        exact (h1 0).symm
      | true =>
        have h1 : ∀ m, runWorker d c (m + 1) q client = runWorker d c m q' client' := by
          intro m; simp [runWorker, hp]
        rw [h1 (n + 1), h1 n]
        exact ih q' client'

theorem runWorker_failing_run (d : Deps) (c : CronJobTriggerController) (key : String)
    (q : RateLimitingQueue) (client : Cluster)
    (hq : q.queue = [key]) (hs : q.shuttingDown = false) (hn : q.NumRequeues key = 0)
    (hfail : ∀ n, n ≤ cronJobTriggerMaxRetries →
      (syncCronJobTrigger d c (runWorker d c n q client).2 key).1 ≠ none) :
    ∀ n, n ≤ cronJobTriggerMaxRetries →
      (runWorker d c n q client).1.queue = [key] ∧
      (runWorker d c n q client).1.shuttingDown = false ∧
      (runWorker d c n q client).1.NumRequeues key = n := by
  intro n
  induction n with
  | zero => intro _; exact ⟨hq, hs, hn⟩
  | succ n ih =>
    intro hle
    obtain ⟨hq1, hs1, hn1⟩ := ih (by omega)
    obtain ⟨q', hstep, hs', -, hretry, -⟩ := processNextItem_step d c key
      (runWorker d c n q client).1 (runWorker d c n q client).2 [] hq1
    obtain ⟨hq', hn'⟩ := hretry (hfail n (by omega)) (by rw [hn1]; omega) hs1
    rw [runWorker_snoc, runWorker_one d c _ _ _ _ hstep]
    exact ⟨by simpa using hq', hs'.trans hs1, by rw [hn', hn1]⟩

theorem runWorker_failing_dropped (d : Deps) (c : CronJobTriggerController) (key : String)
    (q : RateLimitingQueue) (client : Cluster)
    (hq : q.queue = [key]) (hs : q.shuttingDown = false) (hn : q.NumRequeues key = 0)
    (hfail : ∀ n, n ≤ cronJobTriggerMaxRetries →
      (syncCronJobTrigger d c (runWorker d c n q client).2 key).1 ≠ none) :
    (runWorker d c (cronJobTriggerMaxRetries + 1) q client).1.queue = [] ∧
    (runWorker d c (cronJobTriggerMaxRetries + 1) q client).1.shuttingDown = false ∧
    (runWorker d c (cronJobTriggerMaxRetries + 1) q client).1.NumRequeues key = 0 := by
  obtain ⟨hq1, hs1, hn1⟩ := runWorker_failing_run d c key q client hq hs hn hfail
    cronJobTriggerMaxRetries (Nat.le_refl _)
  obtain ⟨q', hstep, hs', -, -, hdrop⟩ := processNextItem_step d c key
    (runWorker d c cronJobTriggerMaxRetries q client).1
    (runWorker d c cronJobTriggerMaxRetries q client).2 [] hq1
  obtain ⟨hq', hn'⟩ := hdrop (hfail _ (Nat.le_refl _)) (by rw [hn1]; omega)
  rw [runWorker_snoc, runWorker_one d c _ _ _ _ hstep]
  exact ⟨hq', hs'.trans hs1, hn'⟩

theorem processNextItem_blocked (d : Deps) (c : CronJobTriggerController)
    (q : RateLimitingQueue) (client : Cluster) (hq : q.queue = [])
    (hs : q.shuttingDown = false) : processNextItem d c q client = none := by
  simp [processNextItem, RateLimitingQueue.Get, hq, hs]

/-! ## Lemmas on the cluster API -/

theorem CronJobsCreate_triggers (c : Cluster) (ns : String) (job : CronJob) :
    (CronJobsCreate c ns job).2.CronJobTriggers = c.CronJobTriggers := by
  unfold CronJobsCreate Cluster.record
  repeat' split
  all_goals rfl

theorem CronJobsGet_triggers (c : Cluster) (ns name : String) :
    (CronJobsGet c ns name).2.CronJobTriggers = c.CronJobTriggers := by
  unfold CronJobsGet Cluster.record
  repeat' split
  all_goals rfl

theorem CronJobsUpdate_triggers (c : Cluster) (ns : String) (job : CronJob) :
    (CronJobsUpdate c ns job).2.CronJobTriggers = c.CronJobTriggers := by
  unfold CronJobsUpdate Cluster.record
  repeat' split
  all_goals rfl

theorem FunctionsGet_triggers (c : Cluster) (ns name : String) :
    (FunctionsGet c ns name).2.CronJobTriggers = c.CronJobTriggers := by
  unfold FunctionsGet Cluster.record
  repeat' split
  all_goals rfl

theorem EnsureCronJob_triggers (d : Deps) (client : Cluster) (funcObj : Function)
    (trig : CronJobTrigger) (img : String) (or : List OwnerReference) (secrets : List String) :
    (EnsureCronJob d client funcObj trig img or secrets).2.CronJobTriggers
      = client.CronJobTriggers := by
  unfold EnsureCronJob
  split
  · rfl
  · next job hb =>
    simp only
    have h1 := CronJobsCreate_triggers client funcObj.ObjectMeta.Namespace job
    split
    · next err client1 hc =>
      rw [hc] at h1
      simp only at h1
      split
      · have h2 := CronJobsGet_triggers client1 funcObj.ObjectMeta.Namespace
          ("trigger-" ++ funcObj.ObjectMeta.Name)
        split
        · next e2 client2 hg =>
          rw [hg] at h2
          exact h2.trans h1
        · next newJob client2 hg =>
          rw [hg] at h2
          split
          · exact h2.trans h1
          · rw [CronJobsUpdate_triggers]
            exact h2.trans h1
      · exact h1
    · next client1 hc =>
      rw [hc] at h1
      exact h1

theorem CronJobsCreate_calls (c : Cluster) (ns : String) (job : CronJob) :
    (CronJobsCreate c ns job).2.calls = c.calls ++ [Call.CronJobsCreate job] := by
  unfold CronJobsCreate Cluster.record
  repeat' split
  all_goals rfl

theorem CronJobsGet_calls (c : Cluster) (ns name : String) :
    (CronJobsGet c ns name).2.calls = c.calls ++ [Call.CronJobsGet ns name] := by
  unfold CronJobsGet Cluster.record
  repeat' split
  all_goals rfl

theorem CronJobsUpdate_calls (c : Cluster) (ns : String) (job : CronJob) :
    (CronJobsUpdate c ns job).2.calls = c.calls ++ [Call.CronJobsUpdate job] := by
  unfold CronJobsUpdate Cluster.record
  repeat' split
  all_goals rfl

theorem CronJobTriggersUpdate_calls (c : Cluster) (ns : String) (t : CronJobTrigger) :
    (CronJobTriggersUpdate c ns t).2.calls = c.calls ++ [Call.CronJobTriggersUpdate t] := by
  unfold CronJobTriggersUpdate Cluster.record
  repeat' split
  all_goals rfl

theorem FunctionsGet_calls (c : Cluster) (ns name : String) :
    (FunctionsGet c ns name).2.calls = c.calls ++ [Call.FunctionsGet ns name] := by
  unfold FunctionsGet Cluster.record
  repeat' split
  all_goals rfl

theorem EnsureCronJob_calls_of_build {d : Deps} (client : Cluster) {funcObj : Function}
    {trig : CronJobTrigger} {img : String} {or : List OwnerReference} {secrets : List String}
    {job : CronJob} (hb : buildCronJob d funcObj trig img or secrets = Except.ok job) :
    ∃ rest, (EnsureCronJob d client funcObj trig img or secrets).2.calls
      = client.calls ++ Call.CronJobsCreate job :: rest := by
  unfold EnsureCronJob
  rw [hb]
  simp only
  have h1 := CronJobsCreate_calls client funcObj.ObjectMeta.Namespace job
  split
  · next err client1 hc =>
    rw [hc] at h1
    simp only at h1
    split
    · have h2 := CronJobsGet_calls client1 funcObj.ObjectMeta.Namespace
        ("trigger-" ++ funcObj.ObjectMeta.Name)
      split
      · next e2 client2 hg =>
        rw [hg] at h2
        simp only at h2
        simp only [h2, h1, List.append_assoc]
        exact ⟨_, rfl⟩
      · next newJob client2 hg =>
        rw [hg] at h2
        simp only at h2
        split
        · simp only [h2, h1, List.append_assoc]
          exact ⟨_, rfl⟩
        · simp only [CronJobsUpdate_calls, h2, h1, List.append_assoc]
          exact ⟨_, rfl⟩
    · exact ⟨[], h1⟩
  · next client1 hc =>
    rw [hc] at h1
    exact ⟨[], h1⟩

theorem EnsureCronJob_calls (d : Deps) (client : Cluster) (funcObj : Function)
    (trig : CronJobTrigger) (img : String) (or : List OwnerReference) (secrets : List String) :
    ∃ rest, (EnsureCronJob d client funcObj trig img or secrets).2.calls
      = client.calls ++ rest := by
  cases hb : buildCronJob d funcObj trig img or secrets with
  | error e => exact ⟨[], by simp [EnsureCronJob, hb]⟩
  | ok job =>
    obtain ⟨rest, h⟩ := EnsureCronJob_calls_of_build client hb
    exact ⟨_, h⟩

theorem findTrigger_update {ts : List CronJobTrigger} {ns name : String} {t : CronJobTrigger}
    (ht : named ns name t.ObjectMeta = true) (x : CronJobTrigger)
    (hx : findTrigger ts ns name = some x) :
    findTrigger (ts.map (fun y => if named ns name y.ObjectMeta then t else y)) ns name
      = some t := by
  unfold findTrigger at *
  induction ts with
  | nil => simp at hx
  | cons a rest ih =>
    cases ha : named ns name a.ObjectMeta with
    | true => simp [List.find?, ha, ht]
    | false =>
      simp only [List.find?, ha] at hx
      simp only [List.map, List.find?, ha, Bool.false_eq_true, if_false]
      exact ih hx

theorem syncCronJobTrigger_without_finalizer (d : Deps) (c : CronJobTriggerController)
    (client : Cluster) (key ns name : String) (obj : CronJobTrigger)
    (hk : SplitMetaNamespaceKey key = Except.ok (ns, name))
    (hc : GetByKey c.cronJobInformer key = (some obj, true, none))
    (hdt : obj.ObjectMeta.DeletionTimestamp = none)
    (hfin : cronJobTriggerObjHasFinalizer obj = false) :
    syncCronJobTrigger d c client key =
      match cronJobTriggerObjAddFinalizer client obj with
      | (some err, client1) => (some err, client1)
      | (none, client1) =>
        match d.GetOwnerReference cronJobObjKind cronJobAPIVersion obj.ObjectMeta.Name
            obj.ObjectMeta.UID with
        | Except.error err => (some err, client1)
        | Except.ok or =>
          match FunctionsGet client1 ns obj.Spec.FunctionName with
          | (Except.error err, client2) => (some err, client2)
          | (Except.ok functionObj, client2) =>
            EnsureCronJob d client2 functionObj obj c.provisionImage or c.imagePullSecrets := by
  simp [syncCronJobTrigger, hk, hc, hdt, hfin]

theorem reconcile_triggers (d : Deps) (c : CronJobTriggerController) (client1 : Cluster)
    (ns : String) (obj : CronJobTrigger) :
    (match d.GetOwnerReference cronJobObjKind cronJobAPIVersion obj.ObjectMeta.Name
        obj.ObjectMeta.UID with
      | Except.error err => (some err, client1)
      | Except.ok or =>
        match FunctionsGet client1 ns obj.Spec.FunctionName with
        | (Except.error err, client2) => (some err, client2)
        | (Except.ok functionObj, client2) =>
          EnsureCronJob d client2 functionObj obj c.provisionImage or
            c.imagePullSecrets).2.CronJobTriggers = client1.CronJobTriggers := by
  split
  · rfl
  · next or hor =>
    have h2 := FunctionsGet_triggers client1 ns obj.Spec.FunctionName
    split
    · next err client2 hg =>
      rw [hg] at h2
      exact h2
    · next f client2 hg =>
      rw [hg] at h2
      rw [EnsureCronJob_triggers]
      exact h2

theorem addFinalizer_stored {client client1 : Cluster} {obj : CronJobTrigger}
    (h : cronJobTriggerObjAddFinalizer client obj = (none, client1)) :
    findTrigger client1.CronJobTriggers obj.ObjectMeta.Namespace obj.ObjectMeta.Name =
      some { obj with ObjectMeta := { obj.ObjectMeta with
        Finalizers := obj.ObjectMeta.Finalizers ++ [cronJobTriggerFinalizer] } } := by
  simp only [cronJobTriggerObjAddFinalizer, UpdateCronJobCustomResource, CronJobTriggersUpdate,
    Cluster.record] at h
  split at h
  · simp at h
  · split at h
    · simp at h
    · next x hx =>
      simp only [Prod.mk.injEq, true_and] at h
      subst h
      exact findTrigger_update (by simp [named]) x hx

/-! ## C1: the delete protocol -/

/-- C1 (evaluation at the failing input): the job `trigger-fn1` that
`EnsureCronJob` created for trigger `t1` is stored; reconciling the deleting
`t1` succeeds, issues the delete for a job named `t1`, the trigger's own name,
and the finalizer-removing update, and leaves the job `trigger-fn1` stored. -/
theorem syncCronJobTrigger_delete_targets_trigger_name :
    afterFirstEnsure.CronJobs.map (fun j => j.ObjectMeta.Name) = ["trigger-fn1"] ∧
    (syncCronJobTrigger kubelessDeps { cronJobInformer := [t1Deleting] }
      { afterFirstEnsure with CronJobTriggers := [t1Deleting], calls := [] } "ns/t1").1 = none ∧
    (syncCronJobTrigger kubelessDeps { cronJobInformer := [t1Deleting] }
      { afterFirstEnsure with CronJobTriggers := [t1Deleting], calls := [] } "ns/t1").2.calls
      = [Call.CronJobsDelete "ns" "t1",
         Call.CronJobTriggersUpdate
           { t1Deleting with ObjectMeta := { t1Deleting.ObjectMeta with Finalizers := [] } }] ∧
    (syncCronJobTrigger kubelessDeps { cronJobInformer := [t1Deleting] }
      { afterFirstEnsure with CronJobTriggers := [t1Deleting], calls := [] } "ns/t1").2.CronJobs
      = afterFirstEnsure.CronJobs ∧
    (syncCronJobTrigger kubelessDeps { cronJobInformer := [t1Deleting] }
      { afterFirstEnsure with CronJobTriggers := [t1Deleting], calls := [] }
      "ns/t1").2.CronJobTriggers.map (fun t => t.ObjectMeta.Finalizers) = [[]] :=
  ⟨rfl, rfl, rfl, rfl, rfl⟩

/-! ## C2: conflict safety -/

/-- C2: when the cluster holds a job named `"trigger-" + f` in the function's
namespace whose labels do not carry `created-by=kubeless`, `EnsureCronJob`
returns an error whatever the API calls answer, the stored jobs are the same as
before, and none of the calls it issued is a job update. -/
theorem EnsureCronJob_conflict_keeps_foreign_job (d : Deps) (client : Cluster)
    (funcObj : Function) (cronjobTriggerObj : CronJobTrigger) (reqImage : String)
    (or : List OwnerReference) (reqImagePullSecret : List String) (j : CronJob)
    (hj : findCronJob client.CronJobs funcObj.ObjectMeta.Namespace
      ("trigger-" ++ funcObj.ObjectMeta.Name) = some j)
    (hl : mapGet j.ObjectMeta.Labels "created-by" ≠ some "kubeless") :
    (EnsureCronJob d client funcObj cronjobTriggerObj reqImage or reqImagePullSecret).1 ≠ none ∧
    (EnsureCronJob d client funcObj cronjobTriggerObj reqImage or reqImagePullSecret).2.CronJobs
      = client.CronJobs ∧
    ∃ issued, (EnsureCronJob d client funcObj cronjobTriggerObj reqImage or
        reqImagePullSecret).2.calls = client.calls ++ issued ∧
      ∀ call ∈ issued, call.isCronJobsUpdate = false := by
  have hlab : hasDefaultLabel j.ObjectMeta.Labels = false := by
    unfold hasDefaultLabel
    rw [if_pos (mapIndex_ne_of_mapGet_ne (by decide) hl)]
  cases hb : buildCronJob d funcObj cronjobTriggerObj reqImage or reqImagePullSecret with
  | error e =>
    exact ⟨by simp [EnsureCronJob, hb], by simp [EnsureCronJob, hb], [],
      by simp [EnsureCronJob, hb], by simp⟩
  | ok job =>
    obtain ⟨hname, -, -, -⟩ := buildCronJob_meta hb
    cases hf2 : client.faults (client.calls.length + 1) with
    | some e2 =>
      cases hf : client.faults client.calls.length with
      | some e =>
        cases e <;>
        simp [EnsureCronJob, hb, CronJobsCreate, CronJobsGet, Cluster.record, hname, hj, hf, hf2,
          IsAlreadyExists, hlab, Call.isCronJobsUpdate]
      | none =>
        simp [EnsureCronJob, hb, CronJobsCreate, CronJobsGet, Cluster.record, hname, hj, hf, hf2,
          IsAlreadyExists, hlab, Call.isCronJobsUpdate]
    | none =>
      cases hf : client.faults client.calls.length with
      | some e =>
        cases e <;>
        simp [EnsureCronJob, hb, CronJobsCreate, CronJobsGet, Cluster.record, hname, hj, hf, hf2,
          IsAlreadyExists, hlab, Call.isCronJobsUpdate]
      | none =>
        simp [EnsureCronJob, hb, CronJobsCreate, CronJobsGet, Cluster.record, hname, hj, hf, hf2,
          IsAlreadyExists, hlab, Call.isCronJobsUpdate]

/-- C2 at a concrete cluster: the foreign job `trigger-fn1` survives the
reconcile of `t1`, which fails. -/
theorem EnsureCronJob_conflict_keeps_foreign_job_witness :
    (EnsureCronJob kubelessDeps { CronJobs := [foreignJob] } fn1 t1Finalized "img" t1Owner
      []).1 ≠ none ∧
    (EnsureCronJob kubelessDeps { CronJobs := [foreignJob] } fn1 t1Finalized "img" t1Owner
      []).2.CronJobs = [foreignJob] ∧
    ∃ issued, (EnsureCronJob kubelessDeps { CronJobs := [foreignJob] } fn1 t1Finalized "img"
        t1Owner []).2.calls = [] ++ issued ∧
      ∀ call ∈ issued, call.isCronJobsUpdate = false :=
  EnsureCronJob_conflict_keeps_foreign_job kubelessDeps { CronJobs := [foreignJob] } fn1
    t1Finalized "img" t1Owner [] foreignJob (by decide) (by decide)

/-! ## C3 and C4: the update path and the ownership marker -/

/-- C3 (evaluation at the failing input): applying `EnsureCronJob` twice for
`t1` and `fn1`, a function without labels, succeeds both times and leaves one
job `trigger-fn1` with the same spec and owner references, but the labels
stored after the first application carry `created-by=kubeless` and the labels
stored after the second are empty. -/
theorem EnsureCronJob_twice_changes_labels :
    (EnsureCronJob kubelessDeps clusterFn1 fn1 t1Finalized "img" t1Owner []).1 = none ∧
    (EnsureCronJob kubelessDeps afterFirstEnsure fn1 t1Finalized "img" t1Owner []).1 = none ∧
    afterSecondEnsure.CronJobs.map (fun j => j.ObjectMeta.Name) = ["trigger-fn1"] ∧
    afterSecondEnsure.CronJobs.map (fun j => j.Spec)
      = afterFirstEnsure.CronJobs.map (fun j => j.Spec) ∧
    afterSecondEnsure.CronJobs.map (fun j => j.ObjectMeta.OwnerReferences)
      = afterFirstEnsure.CronJobs.map (fun j => j.ObjectMeta.OwnerReferences) ∧
    afterFirstEnsure.CronJobs.map (fun j => j.ObjectMeta.Labels)
      = [[("created-by", "kubeless")]] ∧
    afterSecondEnsure.CronJobs.map (fun j => j.ObjectMeta.Labels) = [[]] :=
  ⟨rfl, rfl, rfl, rfl, rfl, rfl, rfl⟩

/-- C4 (evaluation at the failing input): the job that the second application
of `EnsureCronJob` writes through the update path, over the marker-carrying job
of the first, does not pass `hasDefaultLabel`, and a third application fails
with the conflict error. -/
theorem EnsureCronJob_update_drops_marker :
    afterFirstEnsure.CronJobs.map (fun j => hasDefaultLabel j.ObjectMeta.Labels) = [true] ∧
    afterSecondEnsure.CronJobs.map (fun j => hasDefaultLabel j.ObjectMeta.Labels) = [false] ∧
    (EnsureCronJob kubelessDeps afterSecondEnsure fn1 t1Finalized "img" t1Owner []).1
      = some (Error.Other "Found a conflicting cronjob object ns/fn1. Aborting") :=
  ⟨rfl, rfl, rfl⟩

/-! ## C5 and C6: the finalizer -/

/-- C5 (counterexample): `t1` is cached without finalizer and deletion
timestamp.  With the function `fn1` missing the pass issues the finalizer
update and the function lookup and fails with not-found; with `fn1` present it
succeeds and has created the job `trigger-fn1` in the same pass. -/
theorem syncCronJobTrigger_finalizer_absent_counterexample :
    (syncCronJobTrigger kubelessDeps { cronJobInformer := [t1] } clusterNoFunction "ns/t1").1
      = some Error.NotFound ∧
    (syncCronJobTrigger kubelessDeps { cronJobInformer := [t1] } clusterNoFunction
      "ns/t1").2.calls = [Call.CronJobTriggersUpdate t1Finalized, Call.FunctionsGet "ns" "fn1"] ∧
    (syncCronJobTrigger kubelessDeps { cronJobInformer := [t1] } clusterT1 "ns/t1").1 = none ∧
    (syncCronJobTrigger kubelessDeps { cronJobInformer := [t1] } clusterT1
      "ns/t1").2.CronJobs.map (fun j => j.ObjectMeta.Name) = ["trigger-fn1"] :=
  ⟨rfl, rfl, rfl, rfl⟩

/-- C5 (amended): for a cached trigger with no deletion timestamp and without
the finalizer, the first call of the pass is the update persisting the trigger
with the finalizer appended; when that update fails its error is returned and
nothing else is issued; when it succeeds the same pass goes on with the owner
reference, the lookup of the referenced function (whose error it returns) and
`EnsureCronJob`, whose result it returns. -/
theorem syncCronJobTrigger_adds_finalizer_and_goes_on (d : Deps)
    (c : CronJobTriggerController) (client : Cluster)
    (key ns name : String) (obj : CronJobTrigger)
    (hk : SplitMetaNamespaceKey key = Except.ok (ns, name))
    (hc : GetByKey c.cronJobInformer key = (some obj, true, none))
    (hdt : obj.ObjectMeta.DeletionTimestamp = none)
    (hfin : cronJobTriggerObjHasFinalizer obj = false) :
    (∃ rest, (syncCronJobTrigger d c client key).2.calls =
      client.calls ++ Call.CronJobTriggersUpdate
        { obj with ObjectMeta := { obj.ObjectMeta with
            Finalizers := obj.ObjectMeta.Finalizers ++ [cronJobTriggerFinalizer] } } :: rest) ∧
    syncCronJobTrigger d c client key =
      match cronJobTriggerObjAddFinalizer client obj with
      | (some err, client1) => (some err, client1)
      | (none, client1) =>
        match d.GetOwnerReference cronJobObjKind cronJobAPIVersion obj.ObjectMeta.Name
            obj.ObjectMeta.UID with
        | Except.error err => (some err, client1)
        | Except.ok or =>
          match FunctionsGet client1 ns obj.Spec.FunctionName with
          | (Except.error err, client2) => (some err, client2)
          | (Except.ok functionObj, client2) =>
            EnsureCronJob d client2 functionObj obj c.provisionImage or c.imagePullSecrets := by
  have heq := syncCronJobTrigger_without_finalizer d c client key ns name obj hk hc hdt hfin
  refine ⟨?_, heq⟩
  rw [heq]
  have h1 : (cronJobTriggerObjAddFinalizer client obj).2.calls = client.calls ++
      [Call.CronJobTriggersUpdate
        { obj with ObjectMeta := { obj.ObjectMeta with
            Finalizers := obj.ObjectMeta.Finalizers ++ [cronJobTriggerFinalizer] } }] := by
    simp only [cronJobTriggerObjAddFinalizer, UpdateCronJobCustomResource,
      CronJobTriggersUpdate_calls]
  split
  · next err client1 ha =>
    rw [ha] at h1
    exact ⟨[], h1⟩
  · next client1 ha =>
    rw [ha] at h1
    simp only at h1
    split
    · exact ⟨[], h1⟩
    · next or hor =>
      have h2 := FunctionsGet_calls client1 ns obj.Spec.FunctionName
      split
      · next err client2 hg =>
        rw [hg] at h2
        simp only at h2
        simp only [h2, h1, List.append_assoc]
        exact ⟨_, rfl⟩
      · next f client2 hg =>
        rw [hg] at h2
        simp only at h2
        obtain ⟨rest, hr⟩ := EnsureCronJob_calls d client2 f obj c.provisionImage or
          c.imagePullSecrets
        simp only [hr, h2, h1, List.append_assoc]
        exact ⟨_, rfl⟩

/-- C5 (amended) at `t1`, cached without the finalizer. -/
theorem syncCronJobTrigger_adds_finalizer_and_goes_on_witness :
    SplitMetaNamespaceKey "ns/t1" = Except.ok ("ns", "t1") ∧
    cronJobTriggerObjHasFinalizer t1 = false ∧
    ∃ rest, (syncCronJobTrigger kubelessDeps { cronJobInformer := [t1] } clusterT1
      "ns/t1").2.calls = clusterT1.calls ++ Call.CronJobTriggersUpdate
        { t1 with ObjectMeta := { t1.ObjectMeta with
            Finalizers := t1.ObjectMeta.Finalizers ++ [cronJobTriggerFinalizer] } } :: rest :=
  ⟨rfl, rfl, (syncCronJobTrigger_adds_finalizer_and_goes_on kubelessDeps
    { cronJobInformer := [t1] } clusterT1 "ns/t1" "ns" "t1" t1 rfl rfl rfl rfl).1⟩

theorem cronJobTriggerObjHasFinalizer_iff (obj : CronJobTrigger) :
    cronJobTriggerObjHasFinalizer obj = true ↔
      cronJobTriggerFinalizer ∈ obj.ObjectMeta.Finalizers := by
  simp [cronJobTriggerObjHasFinalizer]

/-- C6 (counterexample): the cache holds `t1` with the finalizer while the
cluster stores `t1` without it (a stale cache).  The pass succeeds, issues no
trigger update, and the stored `t1` still has no finalizer. -/
theorem syncCronJobTrigger_stale_cache_counterexample :
    t1Finalized.ObjectMeta.DeletionTimestamp = none ∧
    (syncCronJobTrigger kubelessDeps { cronJobInformer := [t1Finalized] } clusterT1
      "ns/t1").1 = none ∧
    (syncCronJobTrigger kubelessDeps { cronJobInformer := [t1Finalized] } clusterT1
      "ns/t1").2.CronJobTriggers.map (fun t => (t.ObjectMeta.Name, t.ObjectMeta.Finalizers))
      = [("t1", [])] :=
  ⟨rfl, rfl, rfl⟩

/-- C6 (amended): for a key whose trigger is in the cache with no deletion
timestamp, after a successful pass either the cached trigger already carried
the finalizer and the pass left the stored triggers as they were, or the cached
trigger did not carry it and the cluster now stores the cached trigger with the
finalizer appended, written by the update of this pass. -/
theorem syncCronJobTrigger_success_finalizer_cached_or_persisted (d : Deps)
    (c : CronJobTriggerController) (client : Cluster)
    (key : String) (obj : CronJobTrigger)
    (hc : GetByKey c.cronJobInformer key = (some obj, true, none))
    (hdt : obj.ObjectMeta.DeletionTimestamp = none)
    (hok : (syncCronJobTrigger d c client key).1 = none) :
    (cronJobTriggerFinalizer ∈ obj.ObjectMeta.Finalizers ∧
      (syncCronJobTrigger d c client key).2.CronJobTriggers = client.CronJobTriggers) ∨
    (cronJobTriggerFinalizer ∉ obj.ObjectMeta.Finalizers ∧
      ∃ t, findTrigger (syncCronJobTrigger d c client key).2.CronJobTriggers
          obj.ObjectMeta.Namespace obj.ObjectMeta.Name = some t ∧
        t = { obj with ObjectMeta := { obj.ObjectMeta with
          Finalizers := obj.ObjectMeta.Finalizers ++ [cronJobTriggerFinalizer] } } ∧
        cronJobTriggerFinalizer ∈ t.ObjectMeta.Finalizers) := by
  cases hk : SplitMetaNamespaceKey key with
  | error e => simp [syncCronJobTrigger, hk] at hok
  | ok p =>
    obtain ⟨ns, name⟩ := p
    cases hfin : cronJobTriggerObjHasFinalizer obj with
    | true =>
      have heq : syncCronJobTrigger d c client key =
          match d.GetOwnerReference cronJobObjKind cronJobAPIVersion obj.ObjectMeta.Name
            obj.ObjectMeta.UID with
          | Except.error err => (some err, client)
          | Except.ok or =>
            match FunctionsGet client ns obj.Spec.FunctionName with
            | (Except.error err, client2) => (some err, client2)
            | (Except.ok functionObj, client2) =>
              EnsureCronJob d client2 functionObj obj c.provisionImage or
                c.imagePullSecrets := by
        simp [syncCronJobTrigger, hk, hc, hdt, hfin]
      rw [heq, reconcile_triggers]
      exact Or.inl ⟨(cronJobTriggerObjHasFinalizer_iff obj).1 hfin, rfl⟩
    | false =>
      have hnot : cronJobTriggerFinalizer ∉ obj.ObjectMeta.Finalizers := by
        intro hmem
        rw [(cronJobTriggerObjHasFinalizer_iff obj).2 hmem] at hfin
        exact Bool.noConfusion hfin
      have heq := syncCronJobTrigger_without_finalizer d c client key ns name obj hk hc hdt hfin
      rw [heq] at hok ⊢
      split at hok
      · simp at hok
      · next client1 ha =>
        rw [reconcile_triggers]
        exact Or.inr ⟨hnot, _, addFinalizer_stored ha, rfl, by simp⟩

/-- C6 (amended) at `t1`, cached without the finalizer: the pass succeeds and
the cluster then stores `t1` with the finalizer. -/
theorem syncCronJobTrigger_success_finalizer_cached_or_persisted_witness :
    (syncCronJobTrigger kubelessDeps { cronJobInformer := [t1] } clusterT1 "ns/t1").1 = none ∧
    ∃ t, findTrigger (syncCronJobTrigger kubelessDeps { cronJobInformer := [t1] } clusterT1
        "ns/t1").2.CronJobTriggers "ns" "t1" = some t ∧
      cronJobTriggerFinalizer ∈ t.ObjectMeta.Finalizers :=
  ⟨rfl, match syncCronJobTrigger_success_finalizer_cached_or_persisted kubelessDeps
      { cronJobInformer := [t1] } clusterT1 "ns/t1" t1 rfl rfl rfl with
    | Or.inl h => absurd h.1 (List.not_mem_nil _)
    | Or.inr ⟨_, t, hfind, _, hmem⟩ => ⟨t, hfind, hmem⟩⟩

/-! ## C7: change filtering -/

/-- C7 (counterexample): two revisions of the deleting `t1` with the same
deletion time, resource version and schedule, the deletion times behind two
pointers, count as changed. -/
theorem cronJobTriggerObjChanged_equal_fields_counterexample :
    t1Deleting.ObjectMeta.DeletionTimestamp.map TimePtr.time
      = t1DeletingCopy.ObjectMeta.DeletionTimestamp.map TimePtr.time ∧
    t1Deleting.ObjectMeta.ResourceVersion = t1DeletingCopy.ObjectMeta.ResourceVersion ∧
    t1Deleting.Spec.Schedule = t1DeletingCopy.Spec.Schedule ∧
    cronJobTriggerObjChanged t1Deleting t1DeletingCopy = true :=
  ⟨rfl, rfl, rfl, rfl⟩

/-- C7 (amended): `cronJobTriggerObjChanged` returns true exactly when the two
revisions differ in the deletion-timestamp pointer (one is nil and the other is
not, or both are set behind different pointers), in the resource version or in
the schedule. -/
theorem cronJobTriggerObjChanged_iff (oldObj newObj : CronJobTrigger) :
    cronJobTriggerObjChanged oldObj newObj = true ↔
      (oldObj.ObjectMeta.DeletionTimestamp.map TimePtr.addr ≠
          newObj.ObjectMeta.DeletionTimestamp.map TimePtr.addr ∨
        oldObj.ObjectMeta.ResourceVersion ≠ newObj.ObjectMeta.ResourceVersion ∨
        oldObj.Spec.Schedule ≠ newObj.Spec.Schedule) := by
  unfold cronJobTriggerObjChanged
  by_cases h1 : oldObj.ObjectMeta.DeletionTimestamp.map TimePtr.addr =
      newObj.ObjectMeta.DeletionTimestamp.map TimePtr.addr
  · by_cases h2 : oldObj.ObjectMeta.ResourceVersion = newObj.ObjectMeta.ResourceVersion
    · by_cases h3 : newObj.Spec.Schedule = oldObj.Spec.Schedule
      · simp [h1, h2, h3]
      · have h3' : ¬ oldObj.Spec.Schedule = newObj.Spec.Schedule := fun h => h3 h.symm
        simp [h1, h2, h3, h3']
    · simp [h1, h2]
  · simp [h1]

/-! ## C8: bounded retry -/

/-- C8: a pass of `processNextItem` on a queue whose first key is `key` returns
true and leaves the key forgotten and not re-added when the reconcile succeeds;
re-added with one more requeue counted when the reconcile fails and the count
is below 11 (the queue not shutting down); forgotten and not re-added when it
fails and the count is not below 11.  For a run of the worker from the key
freshly added in which the reconcile of the key fails at each of the first 12
passes, on the cluster the passes before it left: after each of the first 11
passes the key waits again with that many requeues counted, after pass 12 the
queue is empty and the count is reset, and the worker then stays blocked: no
further retry. -/
theorem processNextItem_bounded_retry (d : Deps) (c : CronJobTriggerController)
    (key : String) :
    (∀ (q : RateLimitingQueue) (client : Cluster) (rest : List String), q.queue = key :: rest →
      ∃ q', processNextItem d c q client
          = some (true, q', (syncCronJobTrigger d c client key).2) ∧
        ((syncCronJobTrigger d c client key).1 = none →
          q'.queue = rest ∧ q'.NumRequeues key = 0) ∧
        ((syncCronJobTrigger d c client key).1 ≠ none →
          q.NumRequeues key < cronJobTriggerMaxRetries → q.shuttingDown = false →
          q'.queue = rest ++ [key] ∧ q'.NumRequeues key = q.NumRequeues key + 1) ∧
        ((syncCronJobTrigger d c client key).1 ≠ none →
          ¬ q.NumRequeues key < cronJobTriggerMaxRetries →
          q'.queue = rest ∧ q'.NumRequeues key = 0)) ∧
    (∀ client : Cluster,
      (∀ n, n ≤ 11 → (syncCronJobTrigger d c
        (runWorker d c n (RateLimitingQueue.Add {} key) client).2 key).1 ≠ none) →
      (∀ n, n ≤ 11 →
        (runWorker d c n (RateLimitingQueue.Add {} key) client).1.queue = [key] ∧
        (runWorker d c n (RateLimitingQueue.Add {} key) client).1.NumRequeues key = n) ∧
      (runWorker d c 12 (RateLimitingQueue.Add {} key) client).1.queue = [] ∧
      (runWorker d c 12 (RateLimitingQueue.Add {} key) client).1.NumRequeues key = 0 ∧
      processNextItem d c (runWorker d c 12 (RateLimitingQueue.Add {} key) client).1
        (runWorker d c 12 (RateLimitingQueue.Add {} key) client).2 = none) := by
  refine ⟨?_, ?_⟩
  · intro q client rest hq
    obtain ⟨q', h1, -, h2, h3, h4⟩ := processNextItem_step d c key q client rest hq
    exact ⟨q', h1, h2, h3, h4⟩
  · intro client hfail
    have hq0 : (RateLimitingQueue.Add {} key).queue = [key] := rfl
    have hs0 : (RateLimitingQueue.Add {} key).shuttingDown = false := rfl
    have hn0 : (RateLimitingQueue.Add {} key).NumRequeues key = 0 := rfl
    refine ⟨?_, ?_⟩
    · intro n hn
      obtain ⟨h1, -, h3⟩ := runWorker_failing_run d c key _ client hq0 hs0 hn0 hfail n hn
      exact ⟨h1, h3⟩
    · obtain ⟨h1, h2, h3⟩ := runWorker_failing_dropped d c key _ client hq0 hs0 hn0 hfail
      exact ⟨h1, h3, processNextItem_blocked d c _ _ h1 h2⟩

/-- C8 at the key `ns/t1` of the cached, finalized `t1` whose function `fn1`
does not exist: every pass fails on the function lookup, the key is re-queued
11 times and dropped by pass 12, after 12 calls to the API, one lookup a pass. -/
theorem processNextItem_bounded_retry_witness :
    (runWorker kubelessDeps { cronJobInformer := [t1Finalized] } 11
      (RateLimitingQueue.Add {} "ns/t1") clusterMissingFunction).1.queue = ["ns/t1"] ∧
    (runWorker kubelessDeps { cronJobInformer := [t1Finalized] } 11
      (RateLimitingQueue.Add {} "ns/t1") clusterMissingFunction).1.NumRequeues "ns/t1" = 11 ∧
    (runWorker kubelessDeps { cronJobInformer := [t1Finalized] } 12
      (RateLimitingQueue.Add {} "ns/t1") clusterMissingFunction).1.queue = [] ∧
    (runWorker kubelessDeps { cronJobInformer := [t1Finalized] } 12
      (RateLimitingQueue.Add {} "ns/t1") clusterMissingFunction).1.NumRequeues "ns/t1" = 0 ∧
    (runWorker kubelessDeps { cronJobInformer := [t1Finalized] } 12
      (RateLimitingQueue.Add {} "ns/t1") clusterMissingFunction).2.calls.length = 12 :=
  have hrun := (processNextItem_bounded_retry kubelessDeps { cronJobInformer := [t1Finalized] }
    "ns/t1").2 clusterMissingFunction (fun n hn => by
      interval_cases n <;> exact (fun h => Option.noConfusion h))
  ⟨(hrun.1 11 (Nat.le_refl _)).1, (hrun.1 11 (Nat.le_refl _)).2, hrun.2.1, hrun.2.2.1, rfl⟩

/-! ## C9: job synthesis -/

/-- C9: when the payload marshals to `payload` and the function's timeout is
empty or parses, the first call `EnsureCronJob` issues is the creation of a job
named `"trigger-" + f` in the function's namespace, with the trigger's
schedule, history limits 3 and 1, `activeDeadlineSeconds` the default timeout
when the function's timeout is empty, and one container whose only argument is
the curl command on `http://f.n.svc.cluster.local:PORT`, PORT being 8080
without declared ports and the first declared port otherwise, followed by
`-d 'payload'` exactly when the payload is not `null`. -/
theorem EnsureCronJob_submits_synthesized_job (d : Deps) (client : Cluster)
    (funcObj : Function)
    (cronjobTriggerObj : CronJobTrigger) (reqImage : String) (or : List OwnerReference)
    (reqImagePullSecret : List String) (payload : String)
    (hp : d.jsonMarshal cronjobTriggerObj.Spec.Payload = Except.ok payload)
    (ht : funcObj.Spec.Timeout = "" ∨ (Atoi funcObj.Spec.Timeout).2 = none) :
    ∃ job rest,
      (EnsureCronJob d client funcObj cronjobTriggerObj reqImage or reqImagePullSecret).2.calls
        = client.calls ++ Call.CronJobsCreate job :: rest ∧
      job.ObjectMeta.Name = "trigger-" ++ funcObj.ObjectMeta.Name ∧
      job.ObjectMeta.Namespace = funcObj.ObjectMeta.Namespace ∧
      job.Spec.Schedule = cronjobTriggerObj.Spec.Schedule ∧
      job.Spec.SuccessfulJobsHistoryLimit = some 3 ∧
      job.Spec.FailedJobsHistoryLimit = some 1 ∧
      (funcObj.Spec.Timeout = "" →
        job.Spec.ActiveDeadlineSeconds = some (Atoi d.defaultTimeout).1) ∧
      job.Spec.Containers.map Container.Args =
        [["curl -Lv " ++ headers ++ " " ++
          ("http://" ++ funcObj.ObjectMeta.Name ++ "." ++ funcObj.ObjectMeta.Namespace ++
            ".svc.cluster.local:" ++
            (match funcObj.Spec.ServiceSpec.Ports with
              | [] => "8080"
              | p :: _ => Itoa p.Port)) ++
          (if payload = "null" then "" else " -d '" ++ payload ++ "'")]] := by
  obtain ⟨job, hb⟩ := buildCronJob_ok d funcObj cronjobTriggerObj reqImage or
    reqImagePullSecret payload hp ht
  obtain ⟨rest, hcalls⟩ := EnsureCronJob_calls_of_build client hb
  obtain ⟨hname, hns, -, -⟩ := buildCronJob_meta hb
  obtain ⟨payload', hp', h1, h2, h3, h4, h5⟩ := buildCronJob_spec hb
  have hpe : payload' = payload := by
    rw [hp] at hp'
    injection hp' with hp'
    exact hp'.symm
  subst hpe
  exact ⟨job, rest, hcalls, hname, hns, h1, h2, h3, h4, h5⟩

set_option maxRecDepth 65536 in
/-- C9 at `fn1` (no ports, no timeout) and `t1` with payload `{"a":1}`: job
`trigger-fn1`, deadline 180, port 8080, command ending in `-d '{"a":1}'`. -/
theorem EnsureCronJob_submits_synthesized_job_witness :
    ∃ job rest,
      (EnsureCronJob kubelessDeps clusterFn1 fn1 t1Finalized "img" t1Owner []).2.calls
        = clusterFn1.calls ++ Call.CronJobsCreate job :: rest ∧
      job.ObjectMeta.Name = "trigger-fn1" ∧
      job.ObjectMeta.Namespace = "ns" ∧
      job.Spec.Schedule = "*/5 * * * *" ∧
      job.Spec.SuccessfulJobsHistoryLimit = some 3 ∧
      job.Spec.FailedJobsHistoryLimit = some 1 ∧
      job.Spec.ActiveDeadlineSeconds = some 180 ∧
      job.Spec.Containers.map Container.Args = [[commandFn1]] :=
  match EnsureCronJob_submits_synthesized_job kubelessDeps clusterFn1 fn1 t1Finalized "img"
    t1Owner [] "\x7b\"a\":1\x7d" rfl (Or.inl rfl) with
  | ⟨job, rest, hcalls, hname, hns, hsched, hsucc, hfail, hdeadline, hargs⟩ =>
    ⟨job, rest, hcalls, hname, hns, hsched, hsucc, hfail, hdeadline rfl, hargs⟩

/-! ## C10: merge precedence -/

/-- C10: `mergeMaps T F` has exactly the keys of `T` and `F`, gives every key of
`T` the value of `T` and every key only in `F` the value of `F`; the labels of
the job submitted for creation are that merge of the trigger's and the
function's labels with `created-by` set to `kubeless`, whatever value the merge
had for it. -/
theorem mergeMaps_precedence_and_marker (d : Deps) (client : Cluster)
    (funcObj : Function)
    (cronjobTriggerObj : CronJobTrigger) (reqImage : String) (or : List OwnerReference)
    (reqImagePullSecret : List String) (payload : String)
    (hp : d.jsonMarshal cronjobTriggerObj.Spec.Payload = Except.ok payload)
    (ht : funcObj.Spec.Timeout = "" ∨ (Atoi funcObj.Spec.Timeout).2 = none) :
    (∀ (T F : List (String × String)) (k : String),
      (mapGet (mergeMaps T F) k ≠ none ↔ mapGet T k ≠ none ∨ mapGet F k ≠ none) ∧
      (∀ v, mapGet T k = some v → mapGet (mergeMaps T F) k = some v) ∧
      (mapGet T k = none → mapGet (mergeMaps T F) k = mapGet F k)) ∧
    ∃ job rest,
      (EnsureCronJob d client funcObj cronjobTriggerObj reqImage or reqImagePullSecret).2.calls
        = client.calls ++ Call.CronJobsCreate job :: rest ∧
      mapGet job.ObjectMeta.Labels "created-by" = some "kubeless" ∧
      ∀ k, k ≠ "created-by" → mapGet job.ObjectMeta.Labels k =
        mapGet (mergeMaps cronjobTriggerObj.ObjectMeta.Labels funcObj.ObjectMeta.Labels) k := by
  refine ⟨?_, ?_⟩
  · intro T F k
    rw [mapGet_mergeMaps]
    cases hT : mapGet T k with
    | some v => simp
    | none => simp
  · obtain ⟨job, hb⟩ := buildCronJob_ok d funcObj cronjobTriggerObj reqImage or
      reqImagePullSecret payload hp ht
    obtain ⟨rest, hcalls⟩ := EnsureCronJob_calls_of_build client hb
    obtain ⟨-, -, hlab, -⟩ := buildCronJob_meta hb
    refine ⟨job, rest, hcalls, ?_, ?_⟩
    · rw [hlab, addDefaultLabel, mapGet_mapSet]
      simp
    · intro k hk
      have hk' : ¬ "created-by" = k := fun e => hk e.symm
      rw [hlab, addDefaultLabel, mapGet_mapSet]
      simp [hk']

/-- C10 at `fn2`, whose labels are `app=fn`, `created-by=someone` and
`tier=backend`, and `t2`, whose label is `app=trig`: the job submitted carries
`created-by=kubeless`, `app=trig` and `tier=backend`. -/
theorem mergeMaps_precedence_and_marker_witness :
    ∃ job rest,
      (EnsureCronJob kubelessDeps {} fn2 t2 "img" [] []).2.calls
        = ([] : List Call) ++ Call.CronJobsCreate job :: rest ∧
      mapGet job.ObjectMeta.Labels "created-by" = some "kubeless" ∧
      mapGet job.ObjectMeta.Labels "app" = some "trig" ∧
      mapGet job.ObjectMeta.Labels "tier" = some "backend" :=
  match (mergeMaps_precedence_and_marker kubelessDeps {} fn2 t2 "img" [] [] "null" rfl
    (Or.inr rfl)).2 with
  | ⟨job, rest, hcalls, hmarker, hother⟩ =>
    ⟨job, rest, hcalls, hmarker, (hother "app" (by decide)).trans rfl,
      (hother "tier" (by decide)).trans rfl⟩

/-! ## C11: cascading cleanup -/

theorem CronJobTriggersDelete_spec (c : Cluster) (ns name : String)
    (h : c.faults c.calls.length = none ∨ c.faults c.calls.length = some Error.NotFound) :
    ((CronJobTriggersDelete c ns name).1 = none ∨
      (CronJobTriggersDelete c ns name).1 = some Error.NotFound) ∧
    (CronJobTriggersDelete c ns name).2.calls = c.calls ++ [Call.CronJobTriggersDelete ns name] ∧
    (CronJobTriggersDelete c ns name).2.faults = c.faults := by
  unfold CronJobTriggersDelete Cluster.record
  rcases h with h | h
  · rw [h]
    cases findTrigger c.CronJobTriggers ns name with
    | none => exact ⟨Or.inr rfl, rfl, rfl⟩
    | some x => exact ⟨Or.inl rfl, rfl, rfl⟩
  · rw [h]
    exact ⟨Or.inr rfl, rfl, rfl⟩

theorem deleteCronJobTriggersOf_spec (functionObj : Function) :
    ∀ (items : List CronJobTrigger) (client : Cluster),
      (∀ i, client.calls.length ≤ i →
        client.faults i = none ∨ client.faults i = some Error.NotFound) →
      (deleteCronJobTriggersOf functionObj items client).1 = none ∧
      (deleteCronJobTriggersOf functionObj items client).2.calls = client.calls ++
        (items.filter (fun t => decide (t.Spec.FunctionName = functionObj.ObjectMeta.Name))).map
          (fun t => Call.CronJobTriggersDelete functionObj.ObjectMeta.Namespace
            t.ObjectMeta.Name) := by
  intro items
  induction items with
  | nil => intro client _; simp [deleteCronJobTriggersOf]
  | cons cjt rest ih =>
    intro client hf
    by_cases hm : cjt.Spec.FunctionName = functionObj.ObjectMeta.Name
    · obtain ⟨hr, hc, hfa⟩ := CronJobTriggersDelete_spec client
        functionObj.ObjectMeta.Namespace cjt.ObjectMeta.Name (hf _ (Nat.le_refl _))
      have hf' : ∀ i, (CronJobTriggersDelete client functionObj.ObjectMeta.Namespace
          cjt.ObjectMeta.Name).2.calls.length ≤ i →
          (CronJobTriggersDelete client functionObj.ObjectMeta.Namespace
            cjt.ObjectMeta.Name).2.faults i = none ∨
          (CronJobTriggersDelete client functionObj.ObjectMeta.Namespace
            cjt.ObjectMeta.Name).2.faults i = some Error.NotFound := by
        intro i hi
        rw [hfa]
        apply hf
        rw [hc] at hi
        simp at hi
        omega
      obtain ⟨ih1, ih2⟩ := ih _ hf'
      simp only [deleteCronJobTriggersOf, hm, if_true]
      cases hd : CronJobTriggersDelete client functionObj.ObjectMeta.Namespace
          cjt.ObjectMeta.Name with
      | mk e client1 =>
        rw [hd] at hr hc ih1 ih2
        simp only at hr hc ih1 ih2
        rcases hr with hr | hr
        · subst hr
          simp only
          refine ⟨ih1, ?_⟩
          rw [ih2, hc]
          simp [hm]
        · subst hr
          simp only [IsNotFound, Bool.not_true, Bool.false_eq_true, if_false]
          refine ⟨ih1, ?_⟩
          rw [ih2, hc]
          simp [hm]
    · obtain ⟨ih1, ih2⟩ := ih client hf
      simp only [deleteCronJobTriggersOf, hm, if_false]
      refine ⟨ih1, ?_⟩
      rw [ih2]
      simp [hm]

/-- C11: for a function `f` in a namespace `n`, handed to the delete handler
directly or inside a tombstone, when the list call succeeds and every later
call succeeds or answers not-found, the handler returns success and the calls
it issues are the list of `n` followed by one delete in `n` for each stored
trigger of `n` whose `spec.functionName` is the name of `f`, and no other. -/
theorem functionAddedDeletedUpdated_cascade (client : Cluster) (obj : InformerObject)
    (f : Function) (key : String)
    (hobj : obj = InformerObject.Function f ∨
      obj = InformerObject.DeletedFinalStateUnknown key (InformerObject.Function f))
    (hns : f.ObjectMeta.Namespace ≠ "")
    (hlist : client.faults client.calls.length = none)
    (hdel : ∀ i, client.calls.length < i →
      client.faults i = none ∨ client.faults i = some Error.NotFound) :
    (functionAddedDeletedUpdated client obj true).1 = none ∧
    (functionAddedDeletedUpdated client obj true).2.calls =
      client.calls ++ Call.CronJobTriggersList f.ObjectMeta.Namespace ::
        (client.CronJobTriggers.filter (fun t =>
          decide (t.ObjectMeta.Namespace = f.ObjectMeta.Namespace) &&
          decide (t.Spec.FunctionName = f.ObjectMeta.Name))).map
          (fun t => Call.CronJobTriggersDelete f.ObjectMeta.Namespace t.ObjectMeta.Name) := by
  have heq : functionAddedDeletedUpdated client obj true =
      deleteCronJobTriggersOf f
        (client.CronJobTriggers.filter (fun t =>
          decide (f.ObjectMeta.Namespace = "") ||
            decide (t.ObjectMeta.Namespace = f.ObjectMeta.Namespace)))
        (client.record (Call.CronJobTriggersList f.ObjectMeta.Namespace)) := by
    rcases hobj with h | h <;> subst h <;>
      simp [functionAddedDeletedUpdated, CronJobTriggersList, hlist]
  rw [heq]
  obtain ⟨h1, h2⟩ := deleteCronJobTriggersOf_spec f
    (client.CronJobTriggers.filter (fun t =>
      decide (f.ObjectMeta.Namespace = "") ||
        decide (t.ObjectMeta.Namespace = f.ObjectMeta.Namespace)))
    (client.record (Call.CronJobTriggersList f.ObjectMeta.Namespace)) (by
      intro i hi
      apply hdel
      simp [Cluster.record] at hi
      omega)
  refine ⟨h1, ?_⟩
  rw [h2]
  simp [Cluster.record, List.filter_filter, hns, Bool.and_comm]

/-- C11 at the tombstone of `fn1`: of the stored triggers `t1`, `t2`, `t3` in
`ns` and `t4` in another namespace, the deletes are those of `t1` and `t3`. -/
theorem functionAddedDeletedUpdated_cascade_witness :
    (functionAddedDeletedUpdated clusterCascade
      (InformerObject.DeletedFinalStateUnknown "ns/fn1" (InformerObject.Function fn1)) true).1
      = none ∧
    (functionAddedDeletedUpdated clusterCascade
      (InformerObject.DeletedFinalStateUnknown "ns/fn1" (InformerObject.Function fn1))
      true).2.calls =
      [Call.CronJobTriggersList "ns", Call.CronJobTriggersDelete "ns" "t1",
        Call.CronJobTriggersDelete "ns" "t3"] :=
  functionAddedDeletedUpdated_cascade clusterCascade
    (InformerObject.DeletedFinalStateUnknown "ns/fn1" (InformerObject.Function fn1)) fn1 "ns/fn1"
    (Or.inr rfl) (by decide) rfl (fun _ _ => Or.inl rfl)

/-! ## C12: the derived job of a trigger -/

theorem findCronJob_append (jobs : List CronJob) (job : CronJob) (ns name : String) :
    findCronJob (jobs ++ [job]) ns name =
      match findCronJob jobs ns name with
      | some j => some j
      | none => if named ns name job.ObjectMeta then some job else none := by
  unfold findCronJob
  induction jobs with
  | nil => cases h : named ns name job.ObjectMeta <;> simp [List.find?, h]
  | cons a rest ih =>
    cases ha : named ns name a.ObjectMeta with
    | true => simp [List.find?, ha]
    | false => simpa [List.find?, ha] using ih

theorem findCronJob_replace_same {jobs : List CronJob} {ns name : String} {new x : CronJob}
    (hnew : named ns name new.ObjectMeta = true) (hx : findCronJob jobs ns name = some x) :
    findCronJob (jobs.map (fun j => if named ns name j.ObjectMeta then new else j)) ns name
      = some new := by
  unfold findCronJob at *
  induction jobs with
  | nil => simp at hx
  | cons a rest ih =>
    cases ha : named ns name a.ObjectMeta with
    | true => simp [List.find?, ha, hnew]
    | false =>
      simp only [List.find?, ha] at hx
      simp only [List.map, List.find?, ha, Bool.false_eq_true, if_false]
      exact ih hx

theorem named_inj {ns name ns' name' : String} {m : ObjectMeta}
    (h : named ns name m = true) (h' : named ns' name' m = true) : ns' = ns ∧ name' = name := by
  simp only [named, Bool.and_eq_true, decide_eq_true_eq] at h h'
  exact ⟨h'.1.symm.trans h.1, h'.2.symm.trans h.2⟩

theorem findCronJob_replace_other (jobs : List CronJob) {ns name ns' name' : String}
    {new : CronJob} (hnew : named ns name new.ObjectMeta = true)
    (hne : ¬ (ns' = ns ∧ name' = name)) :
    findCronJob (jobs.map (fun j => if named ns name j.ObjectMeta then new else j)) ns' name'
      = findCronJob jobs ns' name' := by
  have hnew' : named ns' name' new.ObjectMeta = false := by
    cases h : named ns' name' new.ObjectMeta with
    | false => rfl
    | true => exact absurd (named_inj hnew h) hne
  unfold findCronJob
  induction jobs with
  | nil => rfl
  | cons a rest ih =>
    cases ha : named ns name a.ObjectMeta with
    | true =>
      have ha' : named ns' name' a.ObjectMeta = false := by
        cases h : named ns' name' a.ObjectMeta with
        | false => rfl
        | true => exact absurd (named_inj ha h) hne
      simp only [List.map, List.find?, ha, if_true, hnew', ha']
      exact ih
    | false =>
      simp only [List.map, List.find?, ha, Bool.false_eq_true, if_false]
      cases named ns' name' a.ObjectMeta with
      | true => rfl
      | false => exact ih

theorem CronJobsCreate_cases (c : Cluster) (ns : String) (job : CronJob) :
    ((CronJobsCreate c ns job).1 = none ∧
      findCronJob c.CronJobs ns job.ObjectMeta.Name = none ∧
      (CronJobsCreate c ns job).2.CronJobs = c.CronJobs ++ [job]) ∨
    ((CronJobsCreate c ns job).1 ≠ none ∧
      (CronJobsCreate c ns job).2.CronJobs = c.CronJobs) := by
  unfold CronJobsCreate Cluster.record
  cases c.faults c.calls.length with
  | some e => exact Or.inr ⟨by simp, rfl⟩
  | none =>
    cases hf : findCronJob c.CronJobs ns job.ObjectMeta.Name with
    | some x => exact Or.inr ⟨by simp, rfl⟩
    | none => exact Or.inl ⟨rfl, rfl, rfl⟩

theorem CronJobsGet_cases (c : Cluster) (ns name : String) :
    (CronJobsGet c ns name).2.CronJobs = c.CronJobs ∧
    ∀ j, (CronJobsGet c ns name).1 = Except.ok j → findCronJob c.CronJobs ns name = some j := by
  unfold CronJobsGet Cluster.record
  cases c.faults c.calls.length with
  | some e => exact ⟨rfl, by intro j h; simp at h⟩
  | none =>
    cases hf : findCronJob c.CronJobs ns name with
    | some x =>
      refine ⟨rfl, ?_⟩
      intro j h
      simp only [Except.ok.injEq] at h
      rw [h]
    | none => exact ⟨rfl, by intro j h; simp at h⟩

theorem CronJobsUpdate_cases (c : Cluster) (ns : String) (job : CronJob) :
    ((CronJobsUpdate c ns job).1 = none ∧
      (∃ x, findCronJob c.CronJobs ns job.ObjectMeta.Name = some x) ∧
      (CronJobsUpdate c ns job).2.CronJobs = c.CronJobs.map (fun j =>
        if named ns job.ObjectMeta.Name j.ObjectMeta then job else j)) ∨
    ((CronJobsUpdate c ns job).1 ≠ none ∧
      (CronJobsUpdate c ns job).2.CronJobs = c.CronJobs) := by
  unfold CronJobsUpdate Cluster.record
  cases c.faults c.calls.length with
  | some e => exact Or.inr ⟨by simp, rfl⟩
  | none =>
    cases hf : findCronJob c.CronJobs ns job.ObjectMeta.Name with
    | none => exact Or.inr ⟨by simp, rfl⟩
    | some x => exact Or.inl ⟨rfl, ⟨x, rfl⟩, rfl⟩

theorem findCronJob_named {jobs : List CronJob} {ns name : String} {j : CronJob}
    (h : findCronJob jobs ns name = some j) : named ns name j.ObjectMeta = true := by
  unfold findCronJob at h
  have := List.find?_some h
  simpa using this

theorem buildCronJob_schedule {d : Deps} {funcObj : Function} {trig : CronJobTrigger}
    {img : String} {or : List OwnerReference} {secrets : List String} {job : CronJob}
    (h : buildCronJob d funcObj trig img or secrets = Except.ok job) :
    job.Spec.Schedule = trig.Spec.Schedule := by
  obtain ⟨_, _, h1, _⟩ := buildCronJob_spec h
  exact h1

theorem EnsureCronJob_jobs (d : Deps) (client : Cluster) (funcObj : Function)
    (trig : CronJobTrigger) (img : String) (or : List OwnerReference) (secrets : List String) :
    (∀ ns' name', ¬ (ns' = funcObj.ObjectMeta.Namespace ∧
        name' = "trigger-" ++ funcObj.ObjectMeta.Name) →
      findCronJob (EnsureCronJob d client funcObj trig img or secrets).2.CronJobs ns' name'
        = findCronJob client.CronJobs ns' name') ∧
    ((EnsureCronJob d client funcObj trig img or secrets).1 = none →
      ∃ j, findCronJob (EnsureCronJob d client funcObj trig img or secrets).2.CronJobs
          funcObj.ObjectMeta.Namespace ("trigger-" ++ funcObj.ObjectMeta.Name) = some j ∧
        j.Spec.Schedule = trig.Spec.Schedule ∧ j.ObjectMeta.OwnerReferences = or) := by
  unfold EnsureCronJob
  cases hb : buildCronJob d funcObj trig img or secrets with
  | error e => exact ⟨fun _ _ _ => rfl, by intro h; simp at h⟩
  | ok job =>
    obtain ⟨hname, hns, -, hor⟩ := buildCronJob_meta hb
    have hsched := buildCronJob_schedule hb
    have hjob : named funcObj.ObjectMeta.Namespace ("trigger-" ++ funcObj.ObjectMeta.Name)
        job.ObjectMeta = true := by simp [named, hname, hns]
    simp only
    have hcreate := CronJobsCreate_cases client funcObj.ObjectMeta.Namespace job
    cases hc : CronJobsCreate client funcObj.ObjectMeta.Namespace job with
    | mk res client1 =>
      rw [hc] at hcreate
      simp only at hcreate
      cases res with
      | none =>
        simp only
        rcases hcreate with ⟨-, hfind, hjobs⟩ | ⟨hcontra, -⟩
        · rw [hname] at hfind
          refine ⟨?_, ?_⟩
          · intro ns' name' hne
            rw [hjobs, findCronJob_append]
            have : named ns' name' job.ObjectMeta = false := by
              cases h : named ns' name' job.ObjectMeta with
              | false => rfl
              | true => exact absurd (named_inj hjob h) hne
            rw [this]
            cases findCronJob client.CronJobs ns' name' <;> simp
          · intro _
            refine ⟨job, ?_, hsched, hor⟩
            rw [hjobs, findCronJob_append, hfind, hjob]
            simp
        · exact absurd rfl hcontra
      | some err =>
        have hjobs1 : client1.CronJobs = client.CronJobs := by
          rcases hcreate with ⟨hcontra, -⟩ | ⟨-, h⟩
          · simp at hcontra
          · exact h
        simp only
        split
        · have hget := CronJobsGet_cases client1 funcObj.ObjectMeta.Namespace
            ("trigger-" ++ funcObj.ObjectMeta.Name)
          cases hg : CronJobsGet client1 funcObj.ObjectMeta.Namespace
              ("trigger-" ++ funcObj.ObjectMeta.Name) with
          | mk gres client2 =>
            rw [hg] at hget
            simp only at hget
            obtain ⟨hjobs2, hfound⟩ := hget
            cases gres with
            | error e2 =>
              simp only
              exact ⟨fun _ _ _ => by rw [hjobs2, hjobs1], by intro h; simp at h⟩
            | ok newCronJob =>
              have hx := hfound newCronJob rfl
              rw [hjobs1] at hx
              have hxn := findCronJob_named hx
              simp only
              split
              · exact ⟨fun _ _ _ => by rw [hjobs2, hjobs1], by intro h; simp at h⟩
              · have hnewn : named funcObj.ObjectMeta.Namespace
                    ("trigger-" ++ funcObj.ObjectMeta.Name)
                    ({ newCronJob with
                        ObjectMeta := { newCronJob.ObjectMeta with
                          Labels := funcObj.ObjectMeta.Labels, OwnerReferences := or },
                        Spec := job.Spec } : CronJob).ObjectMeta = true := by
                  simpa [named] using hxn
                have hname2 : ({ newCronJob with
                        ObjectMeta := { newCronJob.ObjectMeta with
                          Labels := funcObj.ObjectMeta.Labels, OwnerReferences := or },
                        Spec := job.Spec } : CronJob).ObjectMeta.Name
                      = "trigger-" ++ funcObj.ObjectMeta.Name := by
                  simp only [named, Bool.and_eq_true, decide_eq_true_eq] at hxn
                  exact hxn.2
                have hupd := CronJobsUpdate_cases client2 funcObj.ObjectMeta.Namespace
                  { newCronJob with
                    ObjectMeta := { newCronJob.ObjectMeta with
                      Labels := funcObj.ObjectMeta.Labels, OwnerReferences := or },
                    Spec := job.Spec }
                rw [hname2, hjobs2, hjobs1] at hupd
                rcases hupd with ⟨hres, ⟨x, hx'⟩, hjobs3⟩ | ⟨hres, hjobs3⟩
                · refine ⟨?_, ?_⟩
                  · intro ns' name' hne
                    rw [hjobs3]
                    exact findCronJob_replace_other _ hnewn hne
                  · intro _
                    refine ⟨{ newCronJob with
                      ObjectMeta := { newCronJob.ObjectMeta with
                        Labels := funcObj.ObjectMeta.Labels, OwnerReferences := or },
                      Spec := job.Spec }, ?_, hsched, rfl⟩
                    rw [hjobs3]
                    exact findCronJob_replace_same hnewn hx'
                · exact ⟨fun _ _ _ => by rw [hjobs3], fun h => absurd h hres⟩
        · exact ⟨fun _ _ _ => by rw [hjobs1], by intro h; simp at h⟩

theorem trigger_name_inj {a b : String} (h : "trigger-" ++ a = "trigger-" ++ b) : a = b := by
  have h1 := congrArg String.data h
  simp only [String.data_append] at h1
  exact String.ext (List.append_cancel_left h1)

theorem FunctionsGet_cases (c : Cluster) (ns name : String) :
    (FunctionsGet c ns name).2.CronJobs = c.CronJobs ∧
    ∀ f, (FunctionsGet c ns name).1 = Except.ok f →
      f.ObjectMeta.Namespace = ns ∧ f.ObjectMeta.Name = name := by
  unfold FunctionsGet Cluster.record
  cases c.faults c.calls.length with
  | some e => exact ⟨rfl, by intro f h; simp at h⟩
  | none =>
    cases hf : findFunction c.Functions ns name with
    | some x =>
      refine ⟨rfl, ?_⟩
      intro f h
      simp only [Except.ok.injEq] at h
      subst h
      unfold findFunction at hf
      have := List.find?_some hf
      simpa [named] using this
    | none => exact ⟨rfl, by intro f h; simp at h⟩

theorem syncCronJobTrigger_with_finalizer (d : Deps) (c : CronJobTriggerController)
    (client : Cluster) (key ns name : String) (obj : CronJobTrigger)
    (hk : SplitMetaNamespaceKey key = Except.ok (ns, name))
    (hc : GetByKey c.cronJobInformer key = (some obj, true, none))
    (hdt : obj.ObjectMeta.DeletionTimestamp = none)
    (hfin : cronJobTriggerObjHasFinalizer obj = true) :
    syncCronJobTrigger d c client key =
      match d.GetOwnerReference cronJobObjKind cronJobAPIVersion obj.ObjectMeta.Name
          obj.ObjectMeta.UID with
      | Except.error err => (some err, client)
      | Except.ok or =>
        match FunctionsGet client ns obj.Spec.FunctionName with
        | (Except.error err, client2) => (some err, client2)
        | (Except.ok functionObj, client2) =>
          EnsureCronJob d client2 functionObj obj c.provisionImage or c.imagePullSecrets := by
  simp [syncCronJobTrigger, hk, hc, hdt, hfin]

theorem syncCronJobTrigger_jobs (d : Deps) (c : CronJobTriggerController)
    (client : Cluster) (key ns name : String) (obj : CronJobTrigger)
    (hk : SplitMetaNamespaceKey key = Except.ok (ns, name))
    (hc : GetByKey c.cronJobInformer key = (some obj, true, none))
    (hdt : obj.ObjectMeta.DeletionTimestamp = none)
    (hfin : cronJobTriggerObjHasFinalizer obj = true) :
    (∀ ns' name', ¬ (ns' = ns ∧ name' = "trigger-" ++ obj.Spec.FunctionName) →
      findCronJob (syncCronJobTrigger d c client key).2.CronJobs ns' name'
        = findCronJob client.CronJobs ns' name') ∧
    ((syncCronJobTrigger d c client key).1 = none →
      ∃ j or, d.GetOwnerReference cronJobObjKind cronJobAPIVersion obj.ObjectMeta.Name
          obj.ObjectMeta.UID = Except.ok or ∧
        findCronJob (syncCronJobTrigger d c client key).2.CronJobs ns
          ("trigger-" ++ obj.Spec.FunctionName) = some j ∧
        j.Spec.Schedule = obj.Spec.Schedule ∧ j.ObjectMeta.OwnerReferences = or) := by
  rw [syncCronJobTrigger_with_finalizer d c client key ns name obj hk hc hdt hfin]
  cases hor : d.GetOwnerReference cronJobObjKind cronJobAPIVersion obj.ObjectMeta.Name
      obj.ObjectMeta.UID with
  | error e => exact ⟨fun _ _ _ => rfl, by intro h; simp at h⟩
  | ok or =>
    simp only
    have hget := FunctionsGet_cases client ns obj.Spec.FunctionName
    cases hg : FunctionsGet client ns obj.Spec.FunctionName with
    | mk res client2 =>
      rw [hg] at hget
      simp only at hget
      obtain ⟨hjobs, hf⟩ := hget
      cases res with
      | error e => exact ⟨fun _ _ _ => by rw [hjobs], by intro h; simp at h⟩
      | ok functionObj =>
        obtain ⟨hfns, hfname⟩ := hf functionObj rfl
        simp only
        obtain ⟨hframe, hjob⟩ := EnsureCronJob_jobs d client2 functionObj obj c.provisionImage
          or c.imagePullSecrets
        rw [hfns, hfname, hjobs] at hframe
        rw [hfns, hfname] at hjob
        refine ⟨hframe, ?_⟩
        intro hok
        obtain ⟨j, h1, h2, h3⟩ := hjob hok
        exact ⟨j, or, rfl, h1, h2, h3⟩

/-- C12 (counterexample): `t1` and `t3` have different names, live in `ns`,
carry the finalizer and both reference `fn1`.  Both reconciles succeed; after
the first the only job is `trigger-fn1` with the schedule and owner `t1`, after
the second the only job is still `trigger-fn1`, now with the schedule and owner
of `t3`. -/
theorem syncCronJobTrigger_same_function_counterexample :
    (syncCronJobTrigger kubelessDeps controllerThree clusterThree "ns/t1").1 = none ∧
    (syncCronJobTrigger kubelessDeps controllerThree
      (syncCronJobTrigger kubelessDeps controllerThree clusterThree "ns/t1").2 "ns/t3").1 = none ∧
    (syncCronJobTrigger kubelessDeps controllerThree clusterThree "ns/t1").2.CronJobs.map
      (fun j => (j.ObjectMeta.Name, j.Spec.Schedule,
        j.ObjectMeta.OwnerReferences.map OwnerReference.Name))
      = [("trigger-fn1", "*/5 * * * *", ["t1"])] ∧
    (syncCronJobTrigger kubelessDeps controllerThree
      (syncCronJobTrigger kubelessDeps controllerThree clusterThree "ns/t1").2
      "ns/t3").2.CronJobs.map
      (fun j => (j.ObjectMeta.Name, j.Spec.Schedule,
        j.ObjectMeta.OwnerReferences.map OwnerReference.Name))
      = [("trigger-fn1", "0 12 * * *", ["t3"])] :=
  ⟨rfl, rfl, rfl, rfl⟩

/-- C12 (amended): for two cached triggers of one namespace, each with the
finalizer and no deletion timestamp, that reference functions of different
names, when the reconcile of the first and then of the second succeed, the
cluster holds the two jobs `"trigger-" + function name`, of different names,
each with the schedule and the owner reference of its own trigger; the second
reconcile left the job of the first as it was, and the first left the job name
of the second as it was. -/
theorem syncCronJobTrigger_jobs_of_distinct_functions (d : Deps)
    (c : CronJobTriggerController) (client : Cluster)
    (keyA keyB ns nameA nameB : String) (objA objB : CronJobTrigger)
    (hkA : SplitMetaNamespaceKey keyA = Except.ok (ns, nameA))
    (hkB : SplitMetaNamespaceKey keyB = Except.ok (ns, nameB))
    (hcA : GetByKey c.cronJobInformer keyA = (some objA, true, none))
    (hcB : GetByKey c.cronJobInformer keyB = (some objB, true, none))
    (hdtA : objA.ObjectMeta.DeletionTimestamp = none)
    (hdtB : objB.ObjectMeta.DeletionTimestamp = none)
    (hfinA : cronJobTriggerObjHasFinalizer objA = true)
    (hfinB : cronJobTriggerObjHasFinalizer objB = true)
    (hfn : objA.Spec.FunctionName ≠ objB.Spec.FunctionName)
    (hokA : (syncCronJobTrigger d c client keyA).1 = none)
    (hokB : (syncCronJobTrigger d c (syncCronJobTrigger d c client keyA).2 keyB).1 = none) :
    ∃ jA jB orA orB,
      d.GetOwnerReference cronJobObjKind cronJobAPIVersion objA.ObjectMeta.Name
        objA.ObjectMeta.UID = Except.ok orA ∧
      d.GetOwnerReference cronJobObjKind cronJobAPIVersion objB.ObjectMeta.Name
        objB.ObjectMeta.UID = Except.ok orB ∧
      findCronJob (syncCronJobTrigger d c (syncCronJobTrigger d c client keyA).2 keyB).2.CronJobs
        ns ("trigger-" ++ objA.Spec.FunctionName) = some jA ∧
      findCronJob (syncCronJobTrigger d c (syncCronJobTrigger d c client keyA).2 keyB).2.CronJobs
        ns ("trigger-" ++ objB.Spec.FunctionName) = some jB ∧
      jA.ObjectMeta.Name ≠ jB.ObjectMeta.Name ∧
      jA.Spec.Schedule = objA.Spec.Schedule ∧ jA.ObjectMeta.OwnerReferences = orA ∧
      jB.Spec.Schedule = objB.Spec.Schedule ∧ jB.ObjectMeta.OwnerReferences = orB ∧
      findCronJob (syncCronJobTrigger d c (syncCronJobTrigger d c client keyA).2 keyB).2.CronJobs
          ns ("trigger-" ++ objA.Spec.FunctionName)
        = findCronJob (syncCronJobTrigger d c client keyA).2.CronJobs
          ns ("trigger-" ++ objA.Spec.FunctionName) ∧
      findCronJob (syncCronJobTrigger d c client keyA).2.CronJobs
          ns ("trigger-" ++ objB.Spec.FunctionName)
        = findCronJob client.CronJobs ns ("trigger-" ++ objB.Spec.FunctionName) := by
  obtain ⟨hframeA, hjobA⟩ := syncCronJobTrigger_jobs d c client keyA ns nameA objA hkA hcA hdtA
    hfinA
  obtain ⟨hframeB, hjobB⟩ := syncCronJobTrigger_jobs d c (syncCronJobTrigger d c client keyA).2
    keyB ns nameB objB hkB hcB hdtB hfinB
  obtain ⟨jA, orA, horA, hfindA, hsA, hoA⟩ := hjobA hokA
  obtain ⟨jB, orB, horB, hfindB, hsB, hoB⟩ := hjobB hokB
  have hneAB : ¬ (ns = ns ∧ "trigger-" ++ objA.Spec.FunctionName
      = "trigger-" ++ objB.Spec.FunctionName) := fun h => hfn (trigger_name_inj h.2)
  have hneBA : ¬ (ns = ns ∧ "trigger-" ++ objB.Spec.FunctionName
      = "trigger-" ++ objA.Spec.FunctionName) := fun h => hfn (trigger_name_inj h.2).symm
  have hkeepA := hframeB ns ("trigger-" ++ objA.Spec.FunctionName) hneAB
  have hkeepB := hframeA ns ("trigger-" ++ objB.Spec.FunctionName) hneBA
  refine ⟨jA, jB, orA, orB, horA, horB, hkeepA.trans hfindA, hfindB, ?_, hsA, hoA, hsB, hoB,
    hkeepA, hkeepB⟩
  have hnA := findCronJob_named hfindA
  have hnB := findCronJob_named hfindB
  simp only [named, Bool.and_eq_true, decide_eq_true_eq] at hnA hnB
  rw [hnA.2, hnB.2]
  exact fun h => hfn (trigger_name_inj h)

/-- C12 (amended) at `t1` on `fn1` and `t2` on `fn2`. -/
theorem syncCronJobTrigger_jobs_of_distinct_functions_witness :
    ∃ jA jB,
      findCronJob (syncCronJobTrigger kubelessDeps controllerThree
        (syncCronJobTrigger kubelessDeps controllerThree clusterThree "ns/t1").2
        "ns/t2").2.CronJobs "ns" "trigger-fn1" = some jA ∧
      findCronJob (syncCronJobTrigger kubelessDeps controllerThree
        (syncCronJobTrigger kubelessDeps controllerThree clusterThree "ns/t1").2
        "ns/t2").2.CronJobs "ns" "trigger-fn2" = some jB ∧
      jA.ObjectMeta.Name ≠ jB.ObjectMeta.Name ∧
      jA.Spec.Schedule = "*/5 * * * *" ∧ jB.Spec.Schedule = "0 * * * *" :=
  match syncCronJobTrigger_jobs_of_distinct_functions kubelessDeps controllerThree clusterThree
    "ns/t1" "ns/t2" "ns" "t1" "t2" t1Finalized t2 rfl rfl rfl rfl rfl rfl rfl rfl (by decide)
    rfl rfl with
  | ⟨jA, jB, _, _, _, _, hA, hB, hne, hsA, _, hsB, _, _, _⟩ =>
    ⟨jA, jB, hA, hB, hne, hsA, hsB⟩

end Kubeless
